import Mathlib

/-!
# Verification of the Healthcare Analytics data quality validation engine

Shallow embedding of `Scripts/data_quality_validator.py`
(class `ComprehensiveDataQualityValidator`) and proofs about it.

Modelling conventions:
* Cell values are `Value`: a rational number, a string, a boolean, or null
  (pandas `NaN`/`NaT` and Python `None` are all modelled as `Value.null`;
  pandas treats them uniformly in `isnull`/`notna`).
* A dataframe is a column-name list plus a list of rows (each row a list of
  cell values, aligned with the column list).
* Dates are modelled as numeric timestamps: `pd.to_datetime` succeeds exactly
  on numeric (already-parsed) values and on nulls (null parses to `NaT`,
  i.e. stays null under `errors='coerce'`).  `datetime.now()` is a parameter
  `now : ℚ` threaded into the consistency check.
* Python float division of `int` by zero raises `ZeroDivisionError`; the
  checks therefore live in `Except String`.  Numpy/pandas division
  (`np.int64 / 0`, series reductions) yields `NaN` instead, modelled as
  `Option ℚ` with `none` for `NaN`.
* Python `round(x, k)` is round-half-to-even at `k` decimal digits.
* Pandas `Series.std` is the square root of the sample variance (ddof = 1);
  the square root is irrational in general, so the result record stores the
  sample variance itself (`var`), which determines the reported std.
-/

set_option maxHeartbeats 1000000

namespace DQV

/-- A dataframe cell value. -/
inductive Value where
  | num (q : ℚ)
  | str (s : String)
  | bool (b : Bool)
  | null
deriving DecidableEq, Repr

/-- A tabular dataset: ordered column names and ordered rows of cells. -/
structure Dataset where
  cols : List String
  rows : List (List Value)
deriving DecidableEq, Repr

/-- Index of a column name in a column list (length if absent). -/
def colIdx (cols : List String) (c : String) : Nat :=
  match cols with
  | [] => 0
  | x :: xs => if x = c then 0 else colIdx xs c + 1

/-- Cell of a row at a column index; absent cells read as null. -/
def entryAt (row : List Value) (i : Nat) : Value := row.getD i .null

/-- The column of values named `c` (all-null if the column is absent). -/
def colVals (d : Dataset) (c : String) : List Value :=
  d.rows.map (fun r => entryAt r (colIdx d.cols c))

/-- Every row has exactly one cell per column. -/
def Dataset.Aligned (d : Dataset) : Prop :=
  ∀ r ∈ d.rows, r.length = d.cols.length

instance (d : Dataset) : Decidable d.Aligned :=
  List.decidableBAll _ d.rows

/-- Embeds `pandas.isnull` on a single cell. -/
def isNullV (v : Value) : Bool := v = Value.null

/-- Count of null cells in a list of values. -/
def nullCount (vs : List Value) : Nat := vs.countP isNullV

/-- Count of non-null cells of column `c` (`len(df[df[c].notna()])`). -/
def nonNullCount (d : Dataset) (c : String) : Nat :=
  (colVals d c).countP (fun v => !isNullV v)

/-- Embeds `df[c] < b` on one cell: pandas comparisons with null are false. -/
def numLt (v : Value) (b : ℚ) : Bool :=
  match v with
  | .num q => q < b
  | _ => false

/-- Embeds `df[c] > b` on one cell. -/
def numGt (v : Value) (b : ℚ) : Bool :=
  match v with
  | .num q => b < q
  | _ => false

/-- Embeds `df[c] >= b` on one cell. -/
def numGe (v : Value) (b : ℚ) : Bool :=
  match v with
  | .num q => b ≤ q
  | _ => false

/-- Replace column `c` with `vals` if present, else append it on the right
(`self.df[c] = vals`). `vals` must have one entry per row. -/
def setCol (d : Dataset) (c : String) (vals : List Value) : Dataset :=
  if c ∈ d.cols then
    ⟨d.cols, (d.rows.zip vals).map (fun p => p.1.set (colIdx d.cols c) p.2)⟩
  else
    ⟨d.cols ++ [c], (d.rows.zip vals).map (fun p => p.1 ++ [p.2])⟩

/-! ## Numeric helpers: Python/numpy arithmetic -/

/-- Round half to even (Python `round` on an exact value). -/
def roundHalfEven (q : ℚ) : ℤ :=
  if q - Int.floor q < 1/2 then Int.floor q
  else if 1/2 < q - Int.floor q then Int.floor q + 1
  else if Even (Int.floor q) then Int.floor q else Int.floor q + 1

/-- Python `round(x, 2)`. -/
def round2 (q : ℚ) : ℚ := (roundHalfEven (q * 100) : ℚ) / 100

/-- Python `round(x, 4)`. -/
def round4 (q : ℚ) : ℚ := (roundHalfEven (q * 10000) : ℚ) / 10000

/-- Pure-Python true division: raises `ZeroDivisionError` on a zero
denominator. -/
def pyDiv (a b : ℚ) : Except String ℚ :=
  if b = 0 then .error "ZeroDivisionError" else .ok (a / b)

/-- Numpy/pandas true division: yields `NaN` (modelled `none`) on a zero
denominator. -/
def npDiv (a b : ℚ) : Option ℚ :=
  if b = 0 then none else some (a / b)

/-- Computes `round((k / n) * 100, 2)` with pure-Python division. -/
def pctOf (k n : Nat) : Except String ℚ := do
  let r ← pyDiv (k : ℚ) (n : ℚ)
  return round2 (r * 100)

/-! ## Default configuration (`_default_config`) -/

def criticalColumns : List String :=
  ["date", "patient_id", "patient_age", "patient_waittime"]

def numericColumns : List String :=
  ["patient_age", "patient_waittime", "patient_sat_score"]

def categoricalColumns : List String :=
  ["patient_gender", "patient_race", "department_referral"]

def expectedRanges : List (String × ℚ × ℚ) :=
  [("patient_age", 0, 120), ("patient_waittime", 0, 300),
   ("patient_sat_score", 0, 10)]

def validValues : List (String × List Value) :=
  [("patient_gender", [.str "M", .str "F"]),
   ("patient_admin_flag", [.str "True", .str "False", .bool true, .bool false]),
   ("Moment", [.str "AM", .str "PM"])]

/-- Columns whose distinct-value counts the uniqueness check reports. -/
def uniquenessKeyColumns : List String :=
  ["patient_id", "patient_gender", "patient_race", "department_referral"]

/-- Adult-only departments used by the cross-field consistency check. -/
def adultOnlyDepts : List Value :=
  [.str "Cardiology", .str "Gastroenterology"]

/-! ## Result records and validator state -/

structure Recommendation where
  severity : String
  category : String
  issue : String
  recommendation : String
deriving DecidableEq, Repr

/-- The mutable state of a `ComprehensiveDataQualityValidator` instance:
`self.df`, `self.original_df` (both snapshots taken by `__init__` via
`df.copy()`), and `self.recommendations`. -/
structure ValidatorState where
  df : Dataset
  original_df : Dataset
  recommendations : List Recommendation
deriving DecidableEq, Repr

/-- Embeds `ComprehensiveDataQualityValidator.__init__(df)` with the default
configuration: both dataframe fields are copies of the caller's dataframe. -/
def mkValidator (df : Dataset) : ValidatorState :=
  { df := df, original_df := df, recommendations := [] }

structure ColMissing where
  count : Nat
  percentage : Option ℚ
  is_critical : Bool
deriving DecidableEq, Repr

structure MissingByRecord where
  records_with_missing : Nat
  percentage : Option ℚ
deriving DecidableEq, Repr

structure CompletenessResult where
  total_records : Nat
  total_columns : Nat
  missing_by_column : List (String × ColMissing)
  missing_by_record : MissingByRecord
  completeness_score : Option ℚ
deriving DecidableEq, Repr

structure DupStat where
  count : Nat
  percentage : ℚ
deriving DecidableEq, Repr

/-- Entry of `unique_constraints`; `ratio_val` is the source's
`uniqueness_ratio` field. -/
structure UniqueConstraint where
  unique_values : Nat
  total_records : Nat
  ratio_val : ℚ
deriving DecidableEq, Repr

structure UniquenessResult where
  exact_duplicates : DupStat
  id_date_duplicates : DupStat
  unique_constraints : List (String × UniqueConstraint)
deriving DecidableEq, Repr

structure RangeViol where
  expected_range : String
  violations : Nat
  percentage : ℚ
deriving DecidableEq, Repr

structure ValueViol where
  expected_values : List Value
  violations : Nat
  invalid_values : List Value
deriving DecidableEq, Repr

/-- Entry `format_violations['date']`: `violations_known` is true when the stored
violation count is the number `0`, false when it is the string `'Unknown'`. -/
structure DateFormatRes where
  violations_known : Bool
  status : String
deriving DecidableEq, Repr

structure ValidityResult where
  range_violations : List (String × RangeViol)
  value_violations : List (String × ValueViol)
  format_violations : Option DateFormatRes
deriving DecidableEq, Repr

structure FutureDates where
  count : Nat
  percentage : ℚ
deriving DecidableEq, Repr

structure HighSatHighWait where
  count : Nat
  percentage : ℚ
  note : String
deriving DecidableEq, Repr

structure PediatricInAdult where
  count : Nat
  note : String
deriving DecidableEq, Repr

structure ConsistencyResult where
  temporal_consistency : Option FutureDates
  logical_consistency : Option HighSatHighWait
  cross_field_consistency : Option PediatricInAdult
deriving DecidableEq, Repr

structure OutlierRes where
  count : Nat
  percentage : ℚ
  lower_bound : ℚ
  upper_bound : ℚ
  q1 : ℚ
  q3 : ℚ
  iqr : ℚ
deriving DecidableEq, Repr

/-- Per-column descriptive statistics, each rounded to 2 decimals in the
source.  `minv`/`maxv` are the source's `min`/`max` keys; `var` is the exact
sample variance (ddof = 1) whose square root pandas reports as `std` — the
root is irrational in general so the variance, which determines it, is
stored instead. -/
structure StatSummary where
  mean : Option ℚ
  median : ℚ
  var : Option ℚ
  minv : Option ℚ
  maxv : Option ℚ
deriving DecidableEq, Repr

structure AccuracyResult where
  outliers : List (String × OutlierRes)
  statistical_summary : List (String × StatSummary)
deriving DecidableEq, Repr

structure DimensionScores where
  completeness : Option ℚ
  uniqueness : ℚ
  validity : ℚ
  consistency : ℚ
  accuracy : ℚ
deriving DecidableEq, Repr

structure OverallResult where
  quality_score : Option ℚ
  dimension_scores : DimensionScores
  total_recommendations : Nat
  critical_issues : Nat
deriving DecidableEq, Repr

structure ValidationResults where
  completeness : CompletenessResult
  uniqueness : UniquenessResult
  validity : ValidityResult
  consistency : ConsistencyResult
  accuracy : AccuracyResult
  overall : OverallResult
deriving DecidableEq, Repr

/-! ## check_completeness -/

/-- Computes `self.df[self.df[col].isnull()].shape[0]` for one named column. -/
def colNullCount (d : Dataset) (c : String) : Nat :=
  nullCount (colVals d c)

/-- Does row `r` of a frame with `ncols` columns contain a null cell
(`df.isnull().any(axis=1)` on one row)? -/
def rowHasNull (ncols : Nat) (r : List Value) : Bool :=
  (List.range ncols).any (fun i => isNullV (entryAt r i))

/-- The result record `check_completeness` builds (a function of the
dataframe alone; numpy divisions yield `NaN`, never raise). -/
def compResOf (d : Dataset) : CompletenessResult :=
  let n := d.rows.length
  let mbc := d.cols.map (fun c =>
    (c, { count := colNullCount d c
          percentage := (npDiv (colNullCount d c : ℚ) (n : ℚ)).map
            (fun r => round2 (r * 100))
          is_critical := c ∈ criticalColumns : ColMissing }))
  let rwm := d.rows.countP (rowHasNull d.cols.length)
  let totalCells := n * d.cols.length
  let missingCells := (d.cols.map (fun c => colNullCount d c)).sum
  { total_records := n
    total_columns := d.cols.length
    missing_by_column := mbc
    missing_by_record :=
      { records_with_missing := rwm
        percentage := (npDiv (rwm : ℚ) (n : ℚ)).map
          (fun r => round2 (r * 100)) }
    completeness_score :=
      (npDiv ((totalCells : ℚ) - (missingCells : ℚ)) (totalCells : ℚ)).map
        (fun r => round2 (r * 100)) }

/-- The HIGH recommendations `check_completeness` appends: one per critical
column with at least one missing value, in column order. -/
def compNewRecsOf (d : Dataset) : List Recommendation :=
  d.cols.filterMap (fun c =>
    if c ∈ criticalColumns ∧ 0 < colNullCount d c then
      let k := colNullCount d c
      some { severity := "HIGH", category := "Completeness"
             issue := s!"Critical column {c} has {k} missing values"
             recommendation := s!"Investigate and fill missing values in {c}" }
    else none)

/-- Embeds `check_completeness`: pure (numpy divisions yield `NaN`, never raise). -/
def checkCompleteness (st : ValidatorState) :
    CompletenessResult × ValidatorState :=
  (compResOf st.df,
   { st with recommendations := st.recommendations ++ compNewRecsOf st.df })

/-! ## check_uniqueness -/

/-- Number of occurrences of row value `r` among `rows`. -/
def rowCount (rows : List (List Value)) (r : List Value) : Nat :=
  rows.countP (fun x => decide (x = r))

/-- Computes `df.duplicated(keep=False).sum()`: rows whose full value occurs at least
twice are all flagged. -/
def dupKeepFalseCount (rows : List (List Value)) : Nat :=
  (rows.filter (fun r => decide (2 ≤ rowCount rows r))).length

/-- Projection of a row onto the `patient_id` and `date` columns. -/
def projIdDate (d : Dataset) (r : List Value) : List Value :=
  [entryAt r (colIdx d.cols "patient_id"), entryAt r (colIdx d.cols "date")]

/-- Computes `df.duplicated(subset=['patient_id','date'], keep=False).sum()`. -/
def idDateDupCount (d : Dataset) : Nat :=
  dupKeepFalseCount (d.rows.map (projIdDate d))

/-- First-occurrence distinct values (`Series.unique`). -/
def uniqList (l : List Value) : List Value :=
  l.foldl (fun acc v => if v ∈ acc then acc else acc ++ [v]) []

/-- Computes `Series.nunique()`: distinct non-null values. -/
def nuniqueOf (vs : List Value) : Nat :=
  (uniqList (vs.filter (fun v => !isNullV v))).length

/-- One step of the `unique_constraints` loop of `check_uniqueness` (skips
absent columns; pure-Python ratio division). -/
def ucStepM (d : Dataset) (n : Nat)
    (acc : List (String × UniqueConstraint)) (c : String) :
    Except String (List (String × UniqueConstraint)) :=
  if c ∈ d.cols then do
    let u := nuniqueOf (colVals d c)
    let r ← pyDiv (u : ℚ) (n : ℚ)
    return acc ++ [(c, { unique_values := u, total_records := n
                         ratio_val := round4 r })]
  else return acc

/-- The `unique_constraints` loop of `check_uniqueness`. -/
def uniqueConstraintsFor (d : Dataset) (n : Nat) :
    Except String (List (String × UniqueConstraint)) :=
  uniquenessKeyColumns.foldlM (ucStepM d n) []

/-- Embeds `check_uniqueness`.  The exact-duplicate percentage divides two Python
ints (raises on an empty frame); the `subset=['patient_id','date']` call
raises `KeyError` when either column is absent. -/
def checkUniqueness (st : ValidatorState) :
    Except String (UniquenessResult × ValidatorState) := do
  let d := st.df
  let n := d.rows.length
  let exCnt := dupKeepFalseCount d.rows
  let exPct ← pctOf exCnt n
  let recs1 : List Recommendation :=
    if 0 < exCnt then
      [{ severity := "MEDIUM", category := "Uniqueness"
         issue := s!"Found {exCnt} exact duplicate records"
         recommendation := "Review and remove duplicate records" }]
    else []
  if "patient_id" ∈ d.cols ∧ "date" ∈ d.cols then
    let idCnt := idDateDupCount d
    let idPct ← pctOf idCnt n
    let recs2 : List Recommendation :=
      if 0 < idCnt then
        [{ severity := "HIGH", category := "Uniqueness"
           issue := s!"Found {idCnt} records with duplicate patient_id and date"
           recommendation :=
             "Investigate why same patient has multiple records on same date" }]
      else []
    let ucs ← uniqueConstraintsFor d n
    return ({ exact_duplicates := { count := exCnt, percentage := exPct }
              id_date_duplicates := { count := idCnt, percentage := idPct }
              unique_constraints := ucs },
            { st with recommendations := st.recommendations ++ recs1 ++ recs2 })
  else
    .error "KeyError: patient_id, date"

/-! ## check_validity -/

/-- Embeds `(df[col] < min_val) | (df[col] > max_val)` on one cell — pandas
comparisons against null are false, so a null is never a violation. -/
def isRangeViolation (v : Value) (mn mx : ℚ) : Bool :=
  numLt v mn || numGt v mx

/-- Embeds `pd.to_datetime` on one cell: numeric timestamps parse to themselves,
nulls are `NaT`, everything else fails to parse. -/
def parseDate : Value → Option ℚ
  | .num q => some q
  | _ => none

/-- Does `pd.to_datetime(df['date'])` (no coercion) succeed?  It raises iff
some non-null value fails to parse. -/
def dateFormatOk (vs : List Value) : Bool :=
  vs.all (fun v => isNullV v || (parseDate v).isSome)

/-- One step of the range-violation loop of `check_validity`: for a
configured range on a present column, the violation count, percentage
(Python division), display string, and a MEDIUM recommendation when
violations exist. -/
def rangeStepM (d : Dataset) (n : Nat)
    (acc : List (String × RangeViol) × List Recommendation)
    (e : String × ℚ × ℚ) :
    Except String (List (String × RangeViol) × List Recommendation) := do
  let c := e.1
  let mn := e.2.1
  let mx := e.2.2
  if c ∈ d.cols then
    let viol := (colVals d c).countP (fun v => isRangeViolation v mn mx)
    let p ← pctOf viol n
    let recs :=
      if 0 < viol then
        [{ severity := "MEDIUM", category := "Validity"
           issue := s!"{viol} records in {c} outside range {mn}-{mx}"
           recommendation :=
             s!"Validate and correct out-of-range values in {c}" }]
      else []
    return (acc.1 ++ [(c, { expected_range := s!"{mn}-{mx}"
                            violations := viol, percentage := p })],
            acc.2 ++ recs)
  else return acc

/-- The range-violation loop of `check_validity`. -/
def rangeViolLoop (d : Dataset) (n : Nat) :
    Except String (List (String × RangeViol) × List Recommendation) :=
  expectedRanges.foldlM (rangeStepM d n) ([], [])

/-- One step of the categorical-value loop of `check_validity`: non-null
values outside the permitted set count as violations; nulls are exempt. -/
def valueStep (d : Dataset)
    (acc : List (String × ValueViol) × List Recommendation)
    (e : String × List Value) :
    List (String × ValueViol) × List Recommendation :=
    let c := e.1
    let valids := e.2
    if c ∈ d.cols then
      let invalid := (colVals d c).filter
        (fun v => !(decide (v ∈ valids)) && !isNullV v)
      let recs :=
        if 0 < invalid.length then
          [{ severity := "MEDIUM", category := "Validity"
             issue := s!"{invalid.length} records in {c} have invalid values"
             recommendation :=
               s!"Standardize values in {c} to match expected categories" }]
        else []
      (acc.1 ++ [(c, { expected_values := valids
                       violations := invalid.length
                       invalid_values := uniqList invalid })],
       acc.2 ++ recs)
    else acc

/-- The categorical-value loop of `check_validity`. -/
def valueViolLoop (d : Dataset) :
    List (String × ValueViol) × List Recommendation :=
  validValues.foldl (valueStep d) ([], [])

/-- The date-format part of `check_validity`: result entry and HIGH
recommendation when the date column fails to parse. -/
def fmtPairOf (d : Dataset) : Option DateFormatRes × List Recommendation :=
  if "date" ∈ d.cols then
    if dateFormatOk (colVals d "date") then
      (some { violations_known := true, status := "Valid" }, [])
    else
      (some { violations_known := false, status := "Invalid" },
       [{ severity := "HIGH", category := "Validity"
          issue := "Date format issues detected"
          recommendation := "Standardize date format to YYYY-MM-DD" }])
  else (none, [])

/-- Embeds `check_validity`. -/
def checkValidity (st : ValidatorState) :
    Except String (ValidityResult × ValidatorState) := do
  let d := st.df
  let n := d.rows.length
  let rpair ← rangeViolLoop d n
  let vpair := valueViolLoop d
  let fpair := fmtPairOf d
  return ({ range_violations := rpair.1, value_violations := vpair.1
            format_violations := fpair.1 },
          { st with recommendations :=
              st.recommendations ++ rpair.2 ++ vpair.2 ++ fpair.2 })

/-! ## check_consistency -/

/-- Cell of row `r` in column `c` of frame `d`. -/
def cellOf (d : Dataset) (r : List Value) (c : String) : Value :=
  entryAt r (colIdx d.cols c)

/-- Embeds `pd.to_datetime(df['date'], errors='coerce')` on one cell. -/
def coerceDate (v : Value) : Value :=
  match parseDate v with
  | some t => .num t
  | none => .null

/-- The dataframe after `self.df['date_parsed'] = pd.to_datetime(...)`. -/
def withDateParsed (d : Dataset) : Dataset :=
  setCol d "date_parsed" ((colVals d "date").map coerceDate)

/-- The temporal part of `check_consistency`: when a `date` column exists,
stores the parsed column into the dataframe, counts strictly-future dates
(Python percentage division by the record count), and emits a HIGH
recommendation when any exist. -/
def temporalM (now : ℚ) (d : Dataset) (n : ℕ) :
    Except String (Option FutureDates × Dataset × List Recommendation) :=
  if "date" ∈ d.cols then do
    let d2 := withDateParsed d
    let fut := (colVals d2 "date_parsed").countP (fun v => numGt v now)
    let p ← pctOf fut n
    let recs : List Recommendation :=
      if 0 < fut then
        [{ severity := "HIGH", category := "Consistency"
           issue := s!"Found {fut} records with future dates"
           recommendation := "Correct dates that are in the future" }]
      else []
    return (some { count := fut, percentage := p }, d2, recs)
  else pure (none, d, [])

/-- The logical part of `check_consistency`: count of rows with
satisfaction ≥ 8 and wait time ≥ 60; advisory only. -/
def logicalM (d1 : Dataset) (n : ℕ) :
    Except String (Option HighSatHighWait) :=
  if "patient_sat_score" ∈ d1.cols ∧ "patient_waittime" ∈ d1.cols then do
    let cnt := d1.rows.countP (fun r =>
      numGe (cellOf d1 r "patient_sat_score") 8 &&
      numGe (cellOf d1 r "patient_waittime") 60)
    let p ← pctOf cnt n
    return some
      { count := cnt, percentage := p
        note := "High satisfaction despite long wait times (may be valid)" }
  else pure none

/-- The cross-field part of `check_consistency`: pediatric patients
referred to adult-only departments; advisory only, count without
percentage. -/
def crossOf (d1 : Dataset) : Option PediatricInAdult :=
  if "patient_age" ∈ d1.cols ∧ "department_referral" ∈ d1.cols then
    some { count := d1.rows.countP (fun r =>
             numLt (cellOf d1 r "patient_age") 13 &&
             decide (cellOf d1 r "department_referral" ∈ adultOnlyDepts))
           note :=
             "Pediatric patients in typically adult-focused departments" }
  else none

/-- Embeds `check_consistency` — note that when a `date` column is present it
MUTATES `self.df` by storing the parsed column. -/
def checkConsistency (now : ℚ) (st : ValidatorState) :
    Except String (ConsistencyResult × ValidatorState) := do
  let d := st.df
  let n := d.rows.length
  let ttrip ← temporalM now d n
  let d1 := ttrip.2.1
  let logical ← logicalM d1 n
  return ({ temporal_consistency := ttrip.1, logical_consistency := logical
            cross_field_consistency := crossOf d1 },
          { st with df := d1
                    recommendations := st.recommendations ++ ttrip.2.2 })

/-! ## check_accuracy -/

/-- The numeric (non-null, numeric-typed) values of a column, in row
order — the values pandas reductions and quantiles aggregate over. -/
def numsOf (d : Dataset) (c : String) : List ℚ :=
  (colVals d c).filterMap (fun v =>
    match v with
    | .num q => some q
    | _ => none)

/-- Computes `df[col].notna().any()`. -/
def hasNonNull (d : Dataset) (c : String) : Bool :=
  (colVals d c).any (fun v => !isNullV v)

def insertSorted (x : ℚ) : List ℚ → List ℚ
  | [] => [x]
  | y :: ys => if x ≤ y then x :: y :: ys else y :: insertSorted x ys

def sortQ (l : List ℚ) : List ℚ := l.foldr insertSorted []

/-- Computes `Series.quantile(q)` with numpy linear interpolation between order
statistics. -/
def quantileLin (l : List ℚ) (q : ℚ) : ℚ :=
  let s := sortQ l
  let h : ℚ := ((s.length : ℚ) - 1) * q
  let lo : Nat := (Int.floor h).toNat
  let x0 := s.getD lo 0
  let x1 := s.getD (lo + 1) x0
  x0 + (h - (Int.floor h : ℚ)) * (x1 - x0)

/-- Sample variance (ddof = 1), `NaN` for fewer than two values; pandas
`std` is its square root. -/
def sampleVar (l : List ℚ) : Option ℚ :=
  match npDiv l.sum (l.length : ℚ) with
  | none => none
  | some m => npDiv ((l.map (fun x => (x - m) ^ 2)).sum) ((l.length : ℚ) - 1)

/-- One iteration of the `check_accuracy` loop for a present column with at
least one non-null value. -/
def accuracyEntry (d : Dataset) (c : String) :
    Except String (OutlierRes × StatSummary × List Recommendation) := do
  let nums := numsOf d c
  let q1 := quantileLin nums (1/4)
  let q3 := quantileLin nums (3/4)
  let iqr := q3 - q1
  let lb := q1 - 3/2 * iqr
  let ub := q3 + 3/2 * iqr
  let ocnt := (colVals d c).countP (fun v => isRangeViolation v lb ub)
  let p ← pctOf ocnt (nonNullCount d c)
  let out : OutlierRes :=
    { count := ocnt, percentage := p
      lower_bound := round2 lb, upper_bound := round2 ub
      q1 := round2 q1, q3 := round2 q3, iqr := round2 iqr }
  let summ : StatSummary :=
    { mean := (npDiv nums.sum (nums.length : ℚ)).map round2
      median := round2 (quantileLin nums (1/2))
      var := sampleVar nums
      minv := nums.min?.map round2
      maxv := nums.max?.map round2 }
  let lbr := round2 lb
  let ubr := round2 ub
  let recs : List Recommendation :=
    if 0 < ocnt then
      [{ severity := "LOW", category := "Accuracy"
         issue := s!"Found {ocnt} statistical outliers in {c}"
         recommendation := s!"Review outliers in {c} (outside {lbr}-{ubr})" }]
    else []
  return (out, summ, recs)

/-- One step of the `check_accuracy` loop (skips a column that is absent or
has no non-null value). -/
def accStepM (d : Dataset)
    (acc : List (String × OutlierRes) × List (String × StatSummary) ×
      List Recommendation) (c : String) :
    Except String (List (String × OutlierRes) × List (String × StatSummary) ×
      List Recommendation) :=
  if c ∈ d.cols ∧ hasNonNull d c then do
    let e ← accuracyEntry d c
    return (acc.1 ++ [(c, e.1)], acc.2.1 ++ [(c, e.2.1)], acc.2.2 ++ e.2.2)
  else return acc

/-- Embeds `check_accuracy`. -/
def checkAccuracy (st : ValidatorState) :
    Except String (AccuracyResult × ValidatorState) := do
  let d := st.df
  let r ← numericColumns.foldlM (accStepM d) ([], [], [])
  return ({ outliers := r.1, statistical_summary := r.2.1 },
          { st with recommendations := st.recommendations ++ r.2.2 })

/-! ## Scorer and run_all_validations -/

/-- Embeds `_calculate_validity_score` (given that the validity record exists). -/
def calcValidityScore (v : ValidityResult) (n : Nat) : Except String ℚ := do
  let tot := (v.range_violations.map (fun p => p.2.violations)).sum +
             (v.value_violations.map (fun p => p.2.violations)).sum
  let r ← pyDiv (tot : ℚ) (n : ℚ)
  return max 0 (100 - r * 100)

/-- Embeds `_calculate_consistency_score` (given the consistency record). -/
def calcConsistencyScore (c : ConsistencyResult) (n : Nat) :
    Except String ℚ := do
  let issues : ℕ :=
    match c.temporal_consistency with
    | some f => f.count
    | none => 0
  let r ← pyDiv (issues : ℚ) (n : ℚ)
  return max 0 (100 - r * 100)

/-- Embeds `_calculate_accuracy_score` (given the accuracy record): outliers are
weighted at half severity. -/
def calcAccuracyScore (a : AccuracyResult) (n : Nat) : Except String ℚ := do
  let tot := (a.outliers.map (fun p => p.2.count)).sum
  let r ← pyDiv (tot : ℚ) (n : ℚ)
  return max 0 (100 - r * 100 * (1/2))

/-- Embeds `run_all_validations`: the five checks in order, then the overall
score.  A `NaN` completeness score propagates into the quality score. -/
def runAllValidations (now : ℚ) (st : ValidatorState) :
    Except String (ValidationResults × ValidatorState) := do
  let cp := checkCompleteness st
  let comp := cp.1
  let up ← checkUniqueness cp.2
  let uniq := up.1
  let vp ← checkValidity up.2
  let val := vp.1
  let np ← checkConsistency now vp.2
  let cons := np.1
  let ap ← checkAccuracy np.2
  let acc := ap.1
  let st5 := ap.2
  let n := st5.df.rows.length
  let uscore := 100 - uniq.exact_duplicates.percentage
  let vscore ← calcValidityScore val n
  let cscore ← calcConsistencyScore cons n
  let ascore ← calcAccuracyScore acc n
  let dims : DimensionScores :=
    { completeness := comp.completeness_score, uniqueness := uscore
      validity := vscore, consistency := cscore, accuracy := ascore }
  let qual := comp.completeness_score.map
    (fun c0 => round2 ((c0 + uscore + vscore + cscore + ascore) / 5))
  return ({ completeness := comp, uniqueness := uniq, validity := val
            consistency := cons, accuracy := acc
            overall :=
              { quality_score := qual, dimension_scores := dims
                total_recommendations := st5.recommendations.length
                critical_issues := (st5.recommendations.filter
                  (fun r => r.severity = "HIGH")).length } },
          st5)

/-! ## Pure normal forms of the checks

Each `...Of` definition names the value a check computes on its success
path; the equation lemmas below prove the `Except`-typed checks equal to
these under the conditions that make every Python division succeed. -/

/-- Pure value of one `unique_constraints` step on success. -/
def ucStep (d : Dataset) (n : Nat)
    (acc : List (String × UniqueConstraint)) (c : String) :
    List (String × UniqueConstraint) :=
  if c ∈ d.cols then
    acc ++ [(c, { unique_values := nuniqueOf (colVals d c), total_records := n
                  ratio_val :=
                    round4 ((nuniqueOf (colVals d c) : ℚ) / (n : ℚ)) })]
  else acc

/-- Pure value of the `check_uniqueness` result on success. -/
def uniqResOf (d : Dataset) : UniquenessResult :=
  { exact_duplicates :=
      { count := dupKeepFalseCount d.rows
        percentage := round2 ((dupKeepFalseCount d.rows : ℚ) /
          (d.rows.length : ℚ) * 100) }
    id_date_duplicates :=
      { count := idDateDupCount d
        percentage := round2 ((idDateDupCount d : ℚ) /
          (d.rows.length : ℚ) * 100) }
    unique_constraints :=
      uniquenessKeyColumns.foldl (ucStep d d.rows.length) [] }

/-- Recommendations `check_uniqueness` appends on success. -/
def uniqRecsOf (d : Dataset) : List Recommendation :=
  let exCnt := dupKeepFalseCount d.rows
  let idCnt := idDateDupCount d
  (if 0 < exCnt then
    [{ severity := "MEDIUM", category := "Uniqueness"
       issue := s!"Found {exCnt} exact duplicate records"
       recommendation := "Review and remove duplicate records" }]
   else []) ++
  (if 0 < idCnt then
    [{ severity := "HIGH", category := "Uniqueness"
       issue := s!"Found {idCnt} records with duplicate patient_id and date"
       recommendation :=
         "Investigate why same patient has multiple records on same date" }]
   else [])

/-- Pure value of one range-violation step on success. -/
def rangeStep (d : Dataset) (n : Nat)
    (acc : List (String × RangeViol) × List Recommendation)
    (e : String × ℚ × ℚ) :
    List (String × RangeViol) × List Recommendation :=
  let c := e.1
  let mn := e.2.1
  let mx := e.2.2
  if c ∈ d.cols then
    let viol := (colVals d c).countP (fun v => isRangeViolation v mn mx)
    let p := round2 ((viol : ℚ) / (n : ℚ) * 100)
    let recs :=
      if 0 < viol then
        [{ severity := "MEDIUM", category := "Validity"
           issue := s!"{viol} records in {c} outside range {mn}-{mx}"
           recommendation :=
             s!"Validate and correct out-of-range values in {c}" }]
      else []
    (acc.1 ++ [(c, { expected_range := s!"{mn}-{mx}"
                     violations := viol, percentage := p })],
     acc.2 ++ recs)
  else acc

/-- Pure value of the range-violation loop on success. -/
def rangePairOf (d : Dataset) :
    List (String × RangeViol) × List Recommendation :=
  expectedRanges.foldl (rangeStep d d.rows.length) ([], [])

/-- Pure value of the `check_validity` result on success. -/
def validityResOf (d : Dataset) : ValidityResult :=
  { range_violations := (rangePairOf d).1
    value_violations := (valueViolLoop d).1
    format_violations := (fmtPairOf d).1 }

/-- Recommendations `check_validity` appends on success. -/
def validityRecsOf (d : Dataset) : List Recommendation :=
  (rangePairOf d).2 ++ (valueViolLoop d).2 ++ (fmtPairOf d).2

/-- Count of strictly-future parsed dates. -/
def futCount (now : ℚ) (d : Dataset) : Nat :=
  (colVals (withDateParsed d) "date_parsed").countP (fun v => numGt v now)

/-- Pure value of the temporal part of `check_consistency`: the
`future_dates` entry, the (possibly mutated) dataframe, and the HIGH
recommendation when future dates exist. -/
def consTripOf (now : ℚ) (d : Dataset) :
    Option FutureDates × Dataset × List Recommendation :=
  if "date" ∈ d.cols then
    let fut := futCount now d
    (some { count := fut
            percentage := round2 ((fut : ℚ) / (d.rows.length : ℚ) * 100) },
     withDateParsed d,
     if 0 < fut then
       [{ severity := "HIGH", category := "Consistency"
          issue := s!"Found {fut} records with future dates"
          recommendation := "Correct dates that are in the future" }]
     else [])
  else (none, d, [])

/-- Pure value of the logical-consistency entry. -/
def logicalOf (d1 : Dataset) (n : Nat) : Option HighSatHighWait :=
  if "patient_sat_score" ∈ d1.cols ∧ "patient_waittime" ∈ d1.cols then
    let cnt := d1.rows.countP (fun r =>
      numGe (cellOf d1 r "patient_sat_score") 8 &&
      numGe (cellOf d1 r "patient_waittime") 60)
    some { count := cnt, percentage := round2 ((cnt : ℚ) / (n : ℚ) * 100)
           note := "High satisfaction despite long wait times (may be valid)" }
  else none

/-- Pure value of the `check_consistency` result on success. -/
def consResOf (now : ℚ) (d : Dataset) : ConsistencyResult :=
  { temporal_consistency := (consTripOf now d).1
    logical_consistency := logicalOf (consTripOf now d).2.1 d.rows.length
    cross_field_consistency := crossOf (consTripOf now d).2.1 }

/-- Pure value of one `check_accuracy` column entry on success. -/
def accEntryP (d : Dataset) (c : String) :
    OutlierRes × StatSummary × List Recommendation :=
  let nums := numsOf d c
  let q1 := quantileLin nums (1/4)
  let q3 := quantileLin nums (3/4)
  let iqr := q3 - q1
  let lb := q1 - 3/2 * iqr
  let ub := q3 + 3/2 * iqr
  let ocnt := (colVals d c).countP (fun v => isRangeViolation v lb ub)
  let lbr := round2 lb
  let ubr := round2 ub
  ({ count := ocnt
     percentage := round2 ((ocnt : ℚ) / (nonNullCount d c : ℚ) * 100)
     lower_bound := round2 lb, upper_bound := round2 ub
     q1 := round2 q1, q3 := round2 q3, iqr := round2 iqr },
   { mean := (npDiv nums.sum (nums.length : ℚ)).map round2
     median := round2 (quantileLin nums (1/2))
     var := sampleVar nums
     minv := nums.min?.map round2
     maxv := nums.max?.map round2 },
   if 0 < ocnt then
     [{ severity := "LOW", category := "Accuracy"
        issue := s!"Found {ocnt} statistical outliers in {c}"
        recommendation := s!"Review outliers in {c} (outside {lbr}-{ubr})" }]
   else [])

/-- Pure value of one `check_accuracy` step on success. -/
def accStep (d : Dataset)
    (acc : List (String × OutlierRes) × List (String × StatSummary) ×
      List Recommendation) (c : String) :
    List (String × OutlierRes) × List (String × StatSummary) ×
      List Recommendation :=
  if c ∈ d.cols ∧ hasNonNull d c then
    (acc.1 ++ [(c, (accEntryP d c).1)],
     acc.2.1 ++ [(c, (accEntryP d c).2.1)],
     acc.2.2 ++ (accEntryP d c).2.2)
  else acc

/-- Pure value of the `check_accuracy` loop on success. -/
def accTripOf (d : Dataset) :
    List (String × OutlierRes) × List (String × StatSummary) ×
      List Recommendation :=
  numericColumns.foldl (accStep d) ([], [], [])

/-- Pure value of `_calculate_validity_score`. -/
def validityScoreOf (v : ValidityResult) (n : Nat) : ℚ :=
  max 0 (100 - ((((v.range_violations.map (fun p => p.2.violations)).sum +
    (v.value_violations.map (fun p => p.2.violations)).sum : ℕ) : ℚ) /
      (n : ℚ)) * 100)

/-- Pure value of `_calculate_consistency_score`. -/
def consistencyScoreOf (c : ConsistencyResult) (n : Nat) : ℚ :=
  let issues : ℕ :=
    match c.temporal_consistency with
    | some f => f.count
    | none => 0
  max 0 (100 - (issues : ℚ) / (n : ℚ) * 100)

/-- Pure value of `_calculate_accuracy_score`. -/
def accuracyScoreOf (a : AccuracyResult) (n : Nat) : ℚ :=
  max 0 (100 - (((a.outliers.map (fun p => p.2.count)).sum : ℚ) / (n : ℚ)) *
    100 * (1/2))

/-- Recommendations appended across a full successful run. -/
def newRecsOf (now : ℚ) (d : Dataset) : List Recommendation :=
  compNewRecsOf d ++ uniqRecsOf d ++
    validityRecsOf d ++ (consTripOf now d).2.2 ++
    (accTripOf (consTripOf now d).2.1).2.2

/-- Final validator state of a successful `run_all_validations`. -/
def finalStateOf (now : ℚ) (st : ValidatorState) : ValidatorState :=
  { df := (consTripOf now st.df).2.1
    original_df := st.original_df
    recommendations := st.recommendations ++ newRecsOf now st.df }

/-- Pure value of the `run_all_validations` result on success. -/
def resultsOf (now : ℚ) (st : ValidatorState) : ValidationResults :=
  let d := st.df
  let comp := compResOf d
  let uniq := uniqResOf d
  let val := validityResOf d
  let cons := consResOf now d
  let d1 := (consTripOf now d).2.1
  let acc : AccuracyResult :=
    { outliers := (accTripOf d1).1, statistical_summary := (accTripOf d1).2.1 }
  let n := d1.rows.length
  let uscore := 100 - uniq.exact_duplicates.percentage
  let vscore := validityScoreOf val n
  let cscore := consistencyScoreOf cons n
  let ascore := accuracyScoreOf acc n
  let recs := st.recommendations ++ newRecsOf now d
  { completeness := comp, uniqueness := uniq, validity := val
    consistency := cons, accuracy := acc
    overall :=
      { quality_score := comp.completeness_score.map
          (fun c0 => round2 ((c0 + uscore + vscore + cscore + ascore) / 5))
        dimension_scores :=
          { completeness := comp.completeness_score, uniqueness := uscore
            validity := vscore, consistency := cscore, accuracy := ascore }
        total_recommendations := recs.length
        critical_issues :=
          (recs.filter (fun r => r.severity = "HIGH")).length } }

/-! ## Concrete test datasets -/

/-- A well-formed two-row dataset with every configured column. -/
def dsFull : Dataset :=
  ⟨["date", "patient_id", "patient_age", "patient_waittime",
    "patient_sat_score", "patient_gender", "patient_race",
    "department_referral", "patient_admin_flag"],
   [[.num 10, .num 1, .num 30, .num 20, .num 5, .str "M", .str "White",
     .str "Cardiology", .bool true],
    [.num 20, .num 2, .num 40, .num 50, .num 7, .str "F", .str "Asian",
     .str "General Practice", .bool false]]⟩

/-- A minimal one-row dataset with only the key columns. -/
def dsSmall : Dataset := ⟨["patient_id", "date"], [[.num 1, .num 0]]⟩

/-- Three rows of which exactly the first and third are identical. -/
def dsPair : Dataset :=
  ⟨["patient_id", "date"],
   [[.num 1, .num 10], [.num 2, .num 20], [.num 1, .num 10]]⟩

/-! ## Arithmetic lemmas -/

lemma roundHalfEven_cases (q : ℚ) :
    roundHalfEven q = ⌊q⌋ ∨ (roundHalfEven q = ⌊q⌋ + 1 ∧ 1/2 ≤ q - ⌊q⌋) := by
  unfold roundHalfEven
  by_cases h1 : q - ⌊q⌋ < 1/2
  · rw [if_pos h1]; exact .inl rfl
  · rw [if_neg h1]
    by_cases h2 : 1/2 < q - ⌊q⌋
    · rw [if_pos h2]; exact .inr ⟨rfl, le_of_lt h2⟩
    · rw [if_neg h2]
      by_cases h3 : Even ⌊q⌋
      · rw [if_pos h3]; exact .inl rfl
      · rw [if_neg h3]; exact .inr ⟨rfl, not_lt.mp h1⟩

lemma roundHalfEven_le {q : ℚ} {n : ℤ} (h : q ≤ n) : roundHalfEven q ≤ n := by
  have hfn : ⌊q⌋ ≤ n := by
    have := Int.floor_le_floor h
    simpa using this
  rcases roundHalfEven_cases q with hc | ⟨hc, hr⟩
  · rw [hc]; exact hfn
  · rw [hc]
    have h1 : (⌊q⌋ : ℚ) < q := by linarith
    have h2 : (⌊q⌋ : ℚ) < (n : ℚ) := lt_of_lt_of_le h1 h
    have h3 : ⌊q⌋ < n := by exact_mod_cast h2
    omega

lemma le_roundHalfEven {q : ℚ} {n : ℤ} (h : (n : ℚ) ≤ q) :
    n ≤ roundHalfEven q := by
  have hn : n ≤ ⌊q⌋ := Int.le_floor.mpr h
  rcases roundHalfEven_cases q with hc | ⟨hc, _⟩ <;> rw [hc] <;> omega

lemma round2_nonneg {q : ℚ} (h : 0 ≤ q) : 0 ≤ round2 q := by
  unfold round2
  have h1 : (0 : ℤ) ≤ roundHalfEven (q * 100) :=
    le_roundHalfEven (by push_cast; linarith)
  have h2 : (0 : ℚ) ≤ (roundHalfEven (q * 100) : ℚ) := by exact_mod_cast h1
  positivity

lemma round2_le_int {q : ℚ} {k : ℤ} (h : q ≤ k) : round2 q ≤ k := by
  unfold round2
  have h1 : q * 100 ≤ ((k * 100 : ℤ) : ℚ) := by push_cast; linarith
  have h2 : roundHalfEven (q * 100) ≤ k * 100 := roundHalfEven_le h1
  have h3 : ((roundHalfEven (q * 100) : ℤ) : ℚ) ≤ ((k * 100 : ℤ) : ℚ) := by
    exact_mod_cast h2
  rw [div_le_iff (by norm_num : (0:ℚ) < 100)]
  push_cast at h3 ⊢
  linarith

lemma round2_le_100 {q : ℚ} (h : q ≤ 100) : round2 q ≤ 100 := by
  have := round2_le_int (k := 100) (by exact_mod_cast h)
  exact_mod_cast this

lemma pyDiv_of_ne {a b : ℚ} (h : b ≠ 0) : pyDiv a b = .ok (a / b) :=
  if_neg h

lemma pyDiv_ok {a b q : ℚ} (h : pyDiv a b = .ok q) : b ≠ 0 ∧ q = a / b := by
  by_cases hb : b = 0
  · rw [hb] at h; simp [pyDiv] at h
  · rw [pyDiv_of_ne hb] at h
    exact ⟨hb, (Except.ok.inj h).symm⟩

lemma pctOf_pos {k n : ℕ} (h : n ≠ 0) :
    pctOf k n = .ok (round2 ((k : ℚ) / (n : ℚ) * 100)) := by
  unfold pctOf
  rw [pyDiv_of_ne (by exact_mod_cast h)]
  rfl

lemma pctOf_ok {k n : ℕ} {q : ℚ} (h : pctOf k n = .ok q) :
    n ≠ 0 ∧ q = round2 ((k : ℚ) / (n : ℚ) * 100) := by
  by_cases hn : n = 0
  · subst hn; simp [pctOf, pyDiv] at h
  · rw [pctOf_pos hn] at h
    exact ⟨hn, (Except.ok.inj h).symm⟩

lemma pct_raw_bounds {k n : ℕ} (hk : k ≤ n) (hn : n ≠ 0) :
    0 ≤ (k : ℚ) / (n : ℚ) * 100 ∧ (k : ℚ) / (n : ℚ) * 100 ≤ 100 := by
  have hn' : (0 : ℚ) < n := by exact_mod_cast Nat.pos_of_ne_zero hn
  constructor
  · positivity
  · have hk' : (k : ℚ) ≤ n := by exact_mod_cast hk
    rw [div_mul_eq_mul_div, div_le_iff hn']
    linarith

lemma pctOf_ok_bounds {k n : ℕ} {q : ℚ} (hk : k ≤ n) (h : pctOf k n = .ok q) :
    0 ≤ q ∧ q ≤ 100 := by
  obtain ⟨hn, hq⟩ := pctOf_ok h
  obtain ⟨h0, h1⟩ := pct_raw_bounds hk hn
  subst hq
  exact ⟨round2_nonneg h0, round2_le_100 h1⟩

/-! ## Equation lemmas: the checks on their success paths -/

lemma bindOk {ε α β : Type} (a : α) (f : α → Except ε β) :
    (Except.ok a : Except ε α) >>= f = f a := rfl

lemma bindErr {ε α β : Type} (e : ε) (f : α → Except ε β) :
    (Except.error e : Except ε α) >>= f = .error e := rfl

lemma pureOk {ε α : Type} (a : α) : (pure a : Except ε α) = .ok a := rfl

lemma ucStepM_eq (d : Dataset) {n : ℕ} (hn : n ≠ 0) (acc c) :
    ucStepM d n acc c = .ok (ucStep d n acc c) := by
  by_cases hc : c ∈ d.cols <;>
    simp only [ucStepM, ucStep, hc, if_true, if_false,
      pyDiv_of_ne (show (n : ℚ) ≠ 0 by exact_mod_cast hn),
      bindOk, pureOk]

lemma ucFold_eq (d : Dataset) {n : ℕ} (hn : n ≠ 0) (cs : List String) :
    ∀ acc, cs.foldlM (ucStepM d n) acc = .ok (cs.foldl (ucStep d n) acc) := by
  induction cs with
  | nil => intro acc; rfl
  | cons c cs ih =>
    intro acc
    rw [List.foldlM_cons, ucStepM_eq d hn acc c, List.foldl_cons]
    exact ih (ucStep d n acc c)

lemma uniqueConstraintsFor_eq (d : Dataset) {n : ℕ} (hn : n ≠ 0) :
    uniqueConstraintsFor d n =
      .ok (uniquenessKeyColumns.foldl (ucStep d n) []) :=
  ucFold_eq d hn uniquenessKeyColumns []

lemma checkUniqueness_eq (df odf : Dataset) (hn : df.rows.length ≠ 0)
    (hp : "patient_id" ∈ df.cols) (hd : "date" ∈ df.cols)
    (recs : List Recommendation) :
    checkUniqueness ⟨df, odf, recs⟩ = .ok (uniqResOf df,
      ⟨df, odf, recs ++ uniqRecsOf df⟩) := by
  simp only [checkUniqueness, pctOf_pos hn, bindOk, hp, hd, and_self,
    if_true, uniqueConstraintsFor_eq df hn, pureOk, uniqResOf,
    uniqRecsOf, List.append_assoc]

lemma checkUniqueness_err_empty (st : ValidatorState)
    (hn : st.df.rows.length = 0) :
    checkUniqueness st = .error "ZeroDivisionError" := by
  have h0 : pctOf (dupKeepFalseCount st.df.rows) st.df.rows.length =
      .error "ZeroDivisionError" := by
    rw [hn]; rfl
  simp only [checkUniqueness, h0, bindErr]

lemma checkUniqueness_err_key (st : ValidatorState)
    (hn : st.df.rows.length ≠ 0)
    (hk : ¬("patient_id" ∈ st.df.cols ∧ "date" ∈ st.df.cols)) :
    checkUniqueness st = .error "KeyError: patient_id, date" := by
  simp only [checkUniqueness, pctOf_pos hn, bindOk, hk, if_false]

lemma checkUniqueness_ok_inv {st : ValidatorState} {u : UniquenessResult}
    {st' : ValidatorState} (h : checkUniqueness st = .ok (u, st')) :
    st.df.rows.length ≠ 0 ∧ "patient_id" ∈ st.df.cols ∧
    "date" ∈ st.df.cols ∧ u = uniqResOf st.df ∧
    st' = { st with recommendations :=
        st.recommendations ++ uniqRecsOf st.df } := by
  obtain ⟨df, odf, recs⟩ := st
  by_cases hn : df.rows.length = 0
  · rw [checkUniqueness_err_empty _ hn] at h
    simp at h
  by_cases hk : "patient_id" ∈ df.cols ∧ "date" ∈ df.cols
  · rw [checkUniqueness_eq df odf hn hk.1 hk.2 recs] at h
    rw [Except.ok.injEq, Prod.mk.injEq] at h
    exact ⟨hn, hk.1, hk.2, h.1.symm, h.2.symm⟩
  · rw [checkUniqueness_err_key _ hn hk] at h
    simp at h

lemma rangeStepM_eq (d : Dataset) {n : ℕ} (hn : n ≠ 0) (acc e) :
    rangeStepM d n acc e = .ok (rangeStep d n acc e) := by
  by_cases hc : e.1 ∈ d.cols <;>
    simp only [rangeStepM, rangeStep, hc, if_true, if_false,
      pctOf_pos hn, bindOk, pureOk]

lemma rangeFold_eq (d : Dataset) {n : ℕ} (hn : n ≠ 0)
    (cs : List (String × ℚ × ℚ)) :
    ∀ acc, cs.foldlM (rangeStepM d n) acc =
      .ok (cs.foldl (rangeStep d n) acc) := by
  induction cs with
  | nil => intro acc; rfl
  | cons c cs ih =>
    intro acc
    rw [List.foldlM_cons, rangeStepM_eq d hn acc c, List.foldl_cons]
    exact ih (rangeStep d n acc c)

lemma rangeViolLoop_eq (d : Dataset) {n : ℕ} (hn : n ≠ 0) :
    rangeViolLoop d n =
      .ok (expectedRanges.foldl (rangeStep d n) ([], [])) :=
  rangeFold_eq d hn expectedRanges ([], [])

lemma checkValidity_eq (df odf : Dataset) (hn : df.rows.length ≠ 0)
    (recs : List Recommendation) :
    checkValidity ⟨df, odf, recs⟩ = .ok (validityResOf df,
      ⟨df, odf, recs ++ validityRecsOf df⟩) := by
  simp only [checkValidity, rangeViolLoop_eq df hn, bindOk, pureOk,
    validityResOf, validityRecsOf, rangePairOf, List.append_assoc]

lemma temporalM_eq (now : ℚ) (d : Dataset) (hn : d.rows.length ≠ 0) :
    temporalM now d d.rows.length = .ok (consTripOf now d) := by
  by_cases hd : "date" ∈ d.cols <;>
    simp only [temporalM, consTripOf, futCount, hd, if_true, if_false,
      pctOf_pos hn, bindOk, pureOk]

lemma logicalM_eq (d1 : Dataset) {n : ℕ} (hn : n ≠ 0) :
    logicalM d1 n = .ok (logicalOf d1 n) := by
  by_cases hl : "patient_sat_score" ∈ d1.cols ∧
      "patient_waittime" ∈ d1.cols <;>
    simp only [logicalM, logicalOf, hl, and_self, if_true, if_false,
      pctOf_pos hn, bindOk, pureOk]

lemma checkConsistency_eq (now : ℚ) (df odf : Dataset)
    (hn : df.rows.length ≠ 0) (recs : List Recommendation) :
    checkConsistency now ⟨df, odf, recs⟩ = .ok (consResOf now df,
      ⟨(consTripOf now df).2.1, odf, recs ++ (consTripOf now df).2.2⟩) := by
  simp only [checkConsistency, temporalM_eq now df hn, bindOk,
    logicalM_eq _ hn, pureOk, consResOf]

lemma hasNonNull_count {d : Dataset} {c : String}
    (h : hasNonNull d c = true) : nonNullCount d c ≠ 0 := by
  unfold hasNonNull at h
  rw [List.any_eq_true] at h
  obtain ⟨v, hv, hp⟩ := h
  exact Nat.pos_iff_ne_zero.mp (List.countP_pos.mpr ⟨v, hv, hp⟩)

lemma accuracyEntry_eq (d : Dataset) (c : String)
    (hnn : nonNullCount d c ≠ 0) :
    accuracyEntry d c = .ok (accEntryP d c) := by
  simp only [accuracyEntry, accEntryP, pctOf_pos hnn, bindOk, pureOk]

lemma accStepM_eq (d : Dataset) (acc) (c : String) :
    accStepM d acc c = .ok (accStep d acc c) := by
  by_cases hc : c ∈ d.cols ∧ hasNonNull d c
  · simp only [accStepM, accStep, hc, and_self, if_true,
      accuracyEntry_eq d c (hasNonNull_count hc.2), bindOk, pureOk]
  · simp only [accStepM, accStep, hc, if_false, pureOk]

lemma accFold_eq (d : Dataset) (cs : List String) :
    ∀ acc, cs.foldlM (accStepM d) acc = .ok (cs.foldl (accStep d) acc) := by
  induction cs with
  | nil => intro acc; rfl
  | cons c cs ih =>
    intro acc
    rw [List.foldlM_cons, accStepM_eq d acc c, List.foldl_cons]
    exact ih (accStep d acc c)

lemma checkAccuracy_eq (df odf : Dataset) (recs : List Recommendation) :
    checkAccuracy ⟨df, odf, recs⟩ = .ok
      ({ outliers := (accTripOf df).1
         statistical_summary := (accTripOf df).2.1 },
       ⟨df, odf, recs ++ (accTripOf df).2.2⟩) := by
  simp only [checkAccuracy, accFold_eq df numericColumns ([], [], []),
    bindOk, pureOk, accTripOf]

lemma calcValidityScore_eq {n : ℕ} (hn : n ≠ 0) (v : ValidityResult) :
    calcValidityScore v n = .ok (validityScoreOf v n) := by
  simp only [calcValidityScore, validityScoreOf,
    pyDiv_of_ne (show (n : ℚ) ≠ 0 by exact_mod_cast hn), bindOk, pureOk]

lemma calcConsistencyScore_eq {n : ℕ} (hn : n ≠ 0) (c : ConsistencyResult) :
    calcConsistencyScore c n = .ok (consistencyScoreOf c n) := by
  simp only [calcConsistencyScore, consistencyScoreOf,
    pyDiv_of_ne (show (n : ℚ) ≠ 0 by exact_mod_cast hn), bindOk, pureOk]

lemma calcAccuracyScore_eq {n : ℕ} (hn : n ≠ 0) (a : AccuracyResult) :
    calcAccuracyScore a n = .ok (accuracyScoreOf a n) := by
  simp only [calcAccuracyScore, accuracyScoreOf,
    pyDiv_of_ne (show (n : ℚ) ≠ 0 by exact_mod_cast hn), bindOk, pureOk]

lemma withDateParsed_rows_length (d : Dataset) :
    (withDateParsed d).rows.length = d.rows.length := by
  unfold withDateParsed setCol
  by_cases hc : "date_parsed" ∈ d.cols <;>
    simp [hc, colVals]

lemma consTripOf_df_rows_length (now : ℚ) (d : Dataset) :
    (consTripOf now d).2.1.rows.length = d.rows.length := by
  unfold consTripOf
  by_cases hd : "date" ∈ d.cols <;> simp [hd, withDateParsed_rows_length]

/-- Equation for `run_all_validations` on its success path. -/
lemma runAll_eq (now : ℚ) (st : ValidatorState)
    (hn : st.df.rows.length ≠ 0)
    (hp : "patient_id" ∈ st.df.cols) (hd : "date" ∈ st.df.cols) :
    runAllValidations now st =
      .ok (resultsOf now st, finalStateOf now st) := by
  obtain ⟨df, odf, recs⟩ := st
  have hn1 : (consTripOf now df).2.1.rows.length ≠ 0 := by
    rw [consTripOf_df_rows_length]; exact hn
  simp only [runAllValidations, checkCompleteness,
    checkUniqueness_eq df odf hn hp hd, bindOk,
    checkValidity_eq df odf hn,
    checkConsistency_eq now df odf hn,
    checkAccuracy_eq,
    calcValidityScore_eq hn1, calcConsistencyScore_eq hn1,
    calcAccuracyScore_eq hn1,
    pureOk, resultsOf, finalStateOf, newRecsOf, List.append_assoc]

/-- Inversion of a successful `run_all_validations`. -/
lemma runAll_ok_inv {now : ℚ} {st : ValidatorState}
    {res : ValidationResults} {s5 : ValidatorState}
    (h : runAllValidations now st = .ok (res, s5)) :
    st.df.rows.length ≠ 0 ∧ "patient_id" ∈ st.df.cols ∧
    "date" ∈ st.df.cols ∧ res = resultsOf now st ∧
    s5 = finalStateOf now st := by
  by_cases hn : st.df.rows.length = 0
  · exfalso
    have he : checkUniqueness (checkCompleteness st).2 =
        .error "ZeroDivisionError" :=
      checkUniqueness_err_empty _ hn
    simp only [runAllValidations, he, bindErr] at h
    exact Except.noConfusion h
  by_cases hk : "patient_id" ∈ st.df.cols ∧ "date" ∈ st.df.cols
  · rw [runAll_eq now st hn hk.1 hk.2] at h
    rw [Except.ok.injEq, Prod.mk.injEq] at h
    exact ⟨hn, hk.1, hk.2, h.1.symm, h.2.symm⟩
  · exfalso
    have he : checkUniqueness (checkCompleteness st).2 =
        .error "KeyError: patient_id, date" :=
      checkUniqueness_err_key _ hn hk
    simp only [runAllValidations, he, bindErr] at h
    exact Except.noConfusion h

/-! ## Score bounds -/

lemma missingCells_le (d : Dataset) :
    (d.cols.map (fun c => colNullCount d c)).sum ≤
      d.rows.length * d.cols.length := by
  have h1 : ∀ x ∈ d.cols.map (fun c => colNullCount d c),
      x ≤ d.rows.length := by
    intro x hx
    obtain ⟨c, hc, rfl⟩ := List.mem_map.mp hx
    calc colNullCount d c ≤ (colVals d c).length :=
          List.countP_le_length _
    _ = d.rows.length := by simp [colVals]
  calc (d.cols.map (fun c => colNullCount d c)).sum
      ≤ (d.cols.map (fun c => colNullCount d c)).length • d.rows.length :=
        List.sum_le_card_nsmul _ _ h1
  _ = d.cols.length * d.rows.length := by simp [smul_eq_mul]
  _ = d.rows.length * d.cols.length := Nat.mul_comm _ _

lemma compScore_bounds (d : Dataset) (hn : d.rows.length ≠ 0)
    (hc : d.cols ≠ []) :
    ∃ c0, (compResOf d).completeness_score = some c0 ∧
      0 ≤ c0 ∧ c0 ≤ 100 := by
  have hT : d.rows.length * d.cols.length ≠ 0 :=
    Nat.mul_ne_zero hn (fun h => hc (List.length_eq_zero.mp h))
  have hTq : ((d.rows.length * d.cols.length : ℕ) : ℚ) ≠ 0 := by
    exact_mod_cast hT
  have hTpos : (0 : ℚ) < ((d.rows.length * d.cols.length : ℕ) : ℚ) := by
    have := Nat.pos_of_ne_zero hT
    exact_mod_cast this
  have hM : ((d.cols.map (fun c => colNullCount d c)).sum : ℚ) ≤
      ((d.rows.length * d.cols.length : ℕ) : ℚ) := by
    exact_mod_cast missingCells_le d
  set T : ℚ := ((d.rows.length * d.cols.length : ℕ) : ℚ) with hTdef
  set M : ℚ := ((d.cols.map (fun c => colNullCount d c)).sum : ℚ) with hMdef
  have hM0 : 0 ≤ M := by positivity
  have hraw0 : 0 ≤ (T - M) / T * 100 := by
    have h1 : 0 ≤ (T - M) / T := div_nonneg (by linarith) (le_of_lt hTpos)
    linarith
  have hraw1 : (T - M) / T * 100 ≤ 100 := by
    have h1 : (T - M) / T ≤ 1 := by
      rw [div_le_one hTpos]; linarith
    linarith
  refine ⟨round2 ((T - M) / T * 100), ?_, round2_nonneg hraw0,
    round2_le_100 hraw1⟩
  simp only [compResOf, npDiv, hTq, if_false, if_neg hTq, Option.map_some']

lemma dupKeepFalseCount_le (rows : List (List Value)) :
    dupKeepFalseCount rows ≤ rows.length :=
  List.length_filter_le _ _

lemma uniqScore_bounds (d : Dataset) (hn : d.rows.length ≠ 0) :
    0 ≤ 100 - (uniqResOf d).exact_duplicates.percentage ∧
    100 - (uniqResOf d).exact_duplicates.percentage ≤ 100 := by
  obtain ⟨h0, h1⟩ := pct_raw_bounds (dupKeepFalseCount_le d.rows) hn
  have hr0 := round2_nonneg h0
  have hr1 := round2_le_100 h1
  simp only [uniqResOf]
  constructor <;> linarith

lemma max_score_bounds {x : ℚ} (hx : 0 ≤ x) :
    0 ≤ max 0 (100 - x) ∧ max 0 (100 - x) ≤ 100 :=
  ⟨le_max_left _ _, max_le (by norm_num) (by linarith)⟩

lemma validityScoreOf_bounds (v : ValidityResult) (n : ℕ) :
    0 ≤ validityScoreOf v n ∧ validityScoreOf v n ≤ 100 := by
  unfold validityScoreOf
  exact max_score_bounds (by positivity)

lemma consistencyScoreOf_bounds (c : ConsistencyResult) (n : ℕ) :
    0 ≤ consistencyScoreOf c n ∧ consistencyScoreOf c n ≤ 100 := by
  unfold consistencyScoreOf
  exact max_score_bounds (mul_nonneg
    (div_nonneg (Nat.cast_nonneg _) (Nat.cast_nonneg _)) (by norm_num))

lemma accuracyScoreOf_bounds (a : AccuracyResult) (n : ℕ) :
    0 ≤ accuracyScoreOf a n ∧ accuracyScoreOf a n ≤ 100 := by
  unfold accuracyScoreOf
  refine max_score_bounds (mul_nonneg (mul_nonneg
    (div_nonneg ?_ (Nat.cast_nonneg _)) (by norm_num)) (by norm_num))
  apply List.sum_nonneg
  intro x hx
  obtain ⟨p, -, rfl⟩ := List.mem_map.mp hx
  exact Nat.cast_nonneg _

/-! ## Claim theorems: validity range semantics (C7, C8) -/

/-- C7: in the validity range check, for every configured range
`(mn, mx)` (so `mn ≤ mx`), a value exactly equal to `mn` or to `mx` is not
counted as a range violation, while a value one unit below `mn` or one unit
above `mx` is counted — the bounds are inclusive. -/
theorem range_bounds_inclusive (mn mx : ℚ) (h : mn ≤ mx) :
    isRangeViolation (.num mn) mn mx = false ∧
    isRangeViolation (.num mx) mn mx = false ∧
    isRangeViolation (.num (mn - 1)) mn mx = true ∧
    isRangeViolation (.num (mx + 1)) mn mx = true := by
  refine ⟨?_, ?_, ?_, ?_⟩ <;>
    simp only [isRangeViolation, numLt, numGt]
  · rw [decide_eq_false (lt_irrefl mn),
      decide_eq_false (not_lt.mpr h), Bool.or_false]
  · rw [decide_eq_false (not_lt.mpr h),
      decide_eq_false (lt_irrefl mx), Bool.or_false]
  · rw [decide_eq_true (show mn - 1 < mn by linarith), Bool.true_or]
  · rw [decide_eq_true (show mx < mx + 1 by linarith), Bool.or_true]

/-- Witness for C7 at the configured `patient_age` range `(0, 120)`. -/
theorem range_bounds_inclusive_witness :
    (0 : ℚ) ≤ 120 ∧
    (isRangeViolation (.num 0) 0 120 = false ∧
     isRangeViolation (.num 120) 0 120 = false ∧
     isRangeViolation (.num (0 - 1)) 0 120 = true ∧
     isRangeViolation (.num (120 + 1)) 0 120 = true) :=
  ⟨by norm_num, range_bounds_inclusive 0 120 (by norm_num)⟩

/-- C8: in the validity range check a null cell is never counted as a range
violation: the pandas comparison predicate is false on null, and the
violation count over any column equals the count over its non-null values
alone. -/
theorem null_never_range_violation (mn mx : ℚ) (vs : List Value) :
    isRangeViolation .null mn mx = false ∧
    vs.countP (fun v => isRangeViolation v mn mx) =
      (vs.filter (fun v => !isNullV v)).countP
        (fun v => isRangeViolation v mn mx) := by
  constructor
  · rfl
  · induction vs with
    | nil => rfl
    | cons v vs ih =>
      by_cases hv : v = Value.null
      · subst hv
        simpa [List.countP_cons, List.filter_cons, isNullV,
          isRangeViolation, numLt, numGt] using ih
      · have hnv : isNullV v = false := by simp [isNullV, hv]
        simp [List.countP_cons, List.filter_cons, hnv, ih]

/-! ## Claim theorems: degenerate inputs (C1, C2 counterexample) -/

/-- C1: contrary to the specification, running all validations on the empty
dataset (0 records) does not complete with all scores 100 — it raises a
`ZeroDivisionError` while computing the exact-duplicate percentage in
`check_uniqueness` (a pure-Python `0 / 0`). -/
theorem empty_dataset_raises (now : ℚ) :
    runAllValidations now (mkValidator ⟨["patient_id", "date"], []⟩) =
      .error "ZeroDivisionError" := rfl

/-- C2 counterexample: `check_uniqueness` does not skip the
`patient_id`/`date` key-duplicate check when those columns are absent — on a
one-row dataset with only a `patient_age` column it raises a `KeyError`
instead of completing. -/
theorem missing_key_columns_crash :
    checkUniqueness (mkValidator ⟨["patient_age"], [[.num 5]]⟩) =
      .error "KeyError: patient_id, date" := rfl

/-! ## Per-entry invariants of the result records -/

lemma compRes_mbc (d : Dataset) (hn : d.rows.length ≠ 0) :
    ∀ p ∈ (compResOf d).missing_by_column, p.1 ∈ d.cols ∧
      p.2.percentage =
        some (round2 ((p.2.count : ℚ) / (d.rows.length : ℚ) * 100)) := by
  intro p hp
  have hq : ((d.rows.length : ℕ) : ℚ) ≠ 0 := by exact_mod_cast hn
  simp only [compResOf] at hp
  obtain ⟨c, hc, rfl⟩ := List.mem_map.mp hp
  exact ⟨hc, by simp [npDiv, hq]⟩

lemma compRes_mbr (d : Dataset) (hn : d.rows.length ≠ 0) :
    (compResOf d).missing_by_record.percentage =
      some (round2
        (((compResOf d).missing_by_record.records_with_missing : ℚ) /
          (d.rows.length : ℚ) * 100)) := by
  have hq : ((d.rows.length : ℕ) : ℚ) ≠ 0 := by exact_mod_cast hn
  simp [compResOf, npDiv, hq]

lemma rangeFold_inv (d : Dataset) (n : ℕ) (cs : List (String × ℚ × ℚ)) :
    ∀ acc, (∀ p ∈ acc.1, p.1 ∈ d.cols ∧
        p.2.percentage = round2 ((p.2.violations : ℚ) / (n : ℚ) * 100)) →
      ∀ p ∈ (cs.foldl (rangeStep d n) acc).1, p.1 ∈ d.cols ∧
        p.2.percentage = round2 ((p.2.violations : ℚ) / (n : ℚ) * 100) := by
  induction cs with
  | nil => intro acc hacc; simpa using hacc
  | cons e cs ih =>
    intro acc hacc
    rw [List.foldl_cons]
    apply ih
    intro p hp
    by_cases hc : e.1 ∈ d.cols
    · simp only [rangeStep, hc, if_true, List.mem_append,
        List.mem_singleton] at hp
      rcases hp with hp | hp
      · exact hacc p hp
      · subst hp
        exact ⟨hc, rfl⟩
    · simp only [rangeStep, hc, if_false] at hp
      exact hacc p hp

lemma ucFold_inv (d : Dataset) (n : ℕ) (cs : List String) :
    ∀ acc, (∀ p ∈ acc, p.1 ∈ d.cols) →
      ∀ p ∈ cs.foldl (ucStep d n) acc, p.1 ∈ d.cols := by
  induction cs with
  | nil => intro acc hacc; exact hacc
  | cons c cs ih =>
    intro acc hacc
    rw [List.foldl_cons]
    apply ih
    intro p hp
    by_cases hc : c ∈ d.cols
    · simp only [ucStep, hc, if_true, List.mem_append,
        List.mem_singleton] at hp
      rcases hp with hp | hp
      · exact hacc p hp
      · subst hp; exact hc
    · simp only [ucStep, hc, if_false] at hp
      exact hacc p hp

lemma valueFold_inv (d : Dataset) (cs : List (String × List Value)) :
    ∀ acc, (∀ p ∈ acc.1, p.1 ∈ d.cols) →
      ∀ p ∈ (cs.foldl (valueStep d) acc).1, p.1 ∈ d.cols := by
  induction cs with
  | nil => intro acc hacc; exact hacc
  | cons e cs ih =>
    intro acc hacc
    rw [List.foldl_cons]
    apply ih
    intro p hp
    by_cases hc : e.1 ∈ d.cols
    · simp only [valueStep, hc, if_true, List.mem_append,
        List.mem_singleton] at hp
      rcases hp with hp | hp
      · exact hacc p hp
      · subst hp; exact hc
    · simp only [valueStep, hc, if_false] at hp
      exact hacc p hp

lemma accFold_inv (d : Dataset) (cs : List String) :
    ∀ acc, (∀ p ∈ acc.1, p.1 ∈ d.cols ∧ p.1 ∈ numericColumns ∧
        p.2.percentage =
          round2 ((p.2.count : ℚ) / (nonNullCount d p.1 : ℚ) * 100)) →
      (∀ c ∈ cs, c ∈ numericColumns) →
      ∀ p ∈ (cs.foldl (accStep d) acc).1, p.1 ∈ d.cols ∧
        p.1 ∈ numericColumns ∧
        p.2.percentage =
          round2 ((p.2.count : ℚ) / (nonNullCount d p.1 : ℚ) * 100) := by
  induction cs with
  | nil => intro acc hacc _; exact hacc
  | cons c cs ih =>
    intro acc hacc hcs
    rw [List.foldl_cons]
    apply ih _ _ (fun x hx => hcs x (List.mem_cons_of_mem _ hx))
    intro p hp
    by_cases hc : c ∈ d.cols ∧ hasNonNull d c
    · simp only [accStep, hc, and_self, if_true, List.mem_append,
        List.mem_singleton] at hp
      rcases hp with hp | hp
      · exact hacc p hp
      · subst hp
        exact ⟨hc.1, hcs c (List.mem_cons_self _ _), rfl⟩
    · simp only [accStep, hc, if_false] at hp
      exact hacc p hp

/-! ## Column preservation across the date mutation -/

lemma colIdx_lt_length {cols : List String} {c : String} (h : c ∈ cols) :
    colIdx cols c < cols.length := by
  induction cols with
  | nil => cases h
  | cons x xs ih =>
    by_cases hx : x = c
    · simp [colIdx, hx]
    · have hm : c ∈ xs := by
        rcases List.mem_cons.mp h with h1 | h1
        · exact absurd h1.symm hx
        · exact h1
      simp only [colIdx, hx, if_false, List.length_cons]
      exact Nat.succ_lt_succ (ih hm)

lemma colIdx_append_left {cols : List String} {c : String} (h : c ∈ cols)
    (l : List String) : colIdx (cols ++ l) c = colIdx cols c := by
  induction cols with
  | nil => cases h
  | cons x xs ih =>
    by_cases hx : x = c
    · simp [colIdx, hx]
    · have hm : c ∈ xs := by
        rcases List.mem_cons.mp h with h1 | h1
        · exact absurd h1.symm hx
        · exact h1
      simp only [List.cons_append, colIdx, hx, if_false, List.append_eq]
      rw [ih hm]

lemma entryAt_append {r : List Value} {v : Value} {i : ℕ}
    (h : i < r.length) : entryAt (r ++ [v]) i = entryAt r i := by
  unfold entryAt
  rw [List.getD_eq_getElem?_getD, List.getD_eq_getElem?_getD,
    List.getElem?_append_left h]

lemma zip_append_entry (i : ℕ) :
    ∀ (rows : List (List Value)) (vals : List Value),
      rows.length = vals.length → (∀ r ∈ rows, i < r.length) →
      ((rows.zip vals).map (fun p => p.1 ++ [p.2])).map
          (fun r => entryAt r i) =
        rows.map (fun r => entryAt r i) := by
  intro rows
  induction rows with
  | nil => intro vals _ _; rfl
  | cons r rs ih =>
    intro vals hlen hb
    cases vals with
    | nil => simp at hlen
    | cons v vs =>
      simp only [List.zip_cons_cons, List.map_cons]
      rw [entryAt_append (hb r (List.mem_cons_self _ _)),
        ih vs (by simpa using hlen)
          (fun x hx => hb x (List.mem_cons_of_mem _ hx))]

lemma colVals_withDateParsed (d : Dataset) (hA : d.Aligned)
    (hdp : "date_parsed" ∉ d.cols) {c : String} (hc : c ∈ d.cols) :
    colVals (withDateParsed d) c = colVals d c := by
  unfold withDateParsed setCol
  rw [if_neg hdp]
  unfold colVals
  simp only
  rw [colIdx_append_left hc]
  apply zip_append_entry
  · simp [colVals]
  · intro r hr
    rw [hA r hr]
    exact colIdx_lt_length hc

lemma nonNullCount_withDateParsed (d : Dataset) (hA : d.Aligned)
    (hdp : "date_parsed" ∉ d.cols) {c : String} (hc : c ∈ d.cols) :
    nonNullCount (withDateParsed d) c = nonNullCount d c := by
  unfold nonNullCount
  rw [colVals_withDateParsed d hA hdp hc]

lemma consTripOf_df (now : ℚ) (d : Dataset) (hd : "date" ∈ d.cols) :
    (consTripOf now d).2.1 = withDateParsed d := by
  simp [consTripOf, hd]

lemma withDateParsed_cols (d : Dataset) (hdp : "date_parsed" ∉ d.cols) :
    (withDateParsed d).cols = d.cols ++ ["date_parsed"] := by
  unfold withDateParsed setCol
  rw [if_neg hdp]

/-! ## Claim theorem: the overall score is the mean of five dimensions (C5) -/

/-- C5: for every dataset on which `run_all_validations` completes,
`overall.quality_score` equals the unweighted arithmetic mean of exactly
the five dimension scores (completeness, uniqueness, validity, consistency,
accuracy), rounded to 2 decimals, and each of the five dimension scores
lies in `[0, 100]`. -/
theorem overall_quality_score_is_mean (now : ℚ) (st : ValidatorState)
    (res : ValidationResults) (s5 : ValidatorState)
    (h : runAllValidations now st = .ok (res, s5)) :
    (∃ c0, res.overall.dimension_scores.completeness = some c0 ∧
      0 ≤ c0 ∧ c0 ≤ 100 ∧
      res.overall.quality_score = some (round2 ((c0 +
        res.overall.dimension_scores.uniqueness +
        res.overall.dimension_scores.validity +
        res.overall.dimension_scores.consistency +
        res.overall.dimension_scores.accuracy) / 5))) ∧
    (0 ≤ res.overall.dimension_scores.uniqueness ∧
      res.overall.dimension_scores.uniqueness ≤ 100) ∧
    (0 ≤ res.overall.dimension_scores.validity ∧
      res.overall.dimension_scores.validity ≤ 100) ∧
    (0 ≤ res.overall.dimension_scores.consistency ∧
      res.overall.dimension_scores.consistency ≤ 100) ∧
    (0 ≤ res.overall.dimension_scores.accuracy ∧
      res.overall.dimension_scores.accuracy ≤ 100) := by
  obtain ⟨hn, hp, hd, hres, -⟩ := runAll_ok_inv h
  subst hres
  have hc : st.df.cols ≠ [] := by
    intro hnil
    rw [hnil] at hp
    exact absurd hp (List.not_mem_nil _)
  obtain ⟨c0, hc0, h00, h01⟩ := compScore_bounds st.df hn hc
  refine ⟨⟨c0, ?_, h00, h01, ?_⟩, ?_, ?_, ?_, ?_⟩
  · simp only [resultsOf]
    exact hc0
  · simp only [resultsOf, hc0, Option.map_some']
  · simp only [resultsOf]
    exact uniqScore_bounds st.df hn
  · simp only [resultsOf]
    exact validityScoreOf_bounds _ _
  · simp only [resultsOf]
    exact consistencyScoreOf_bounds _ _
  · simp only [resultsOf]
    exact accuracyScoreOf_bounds _ _

/-- Witness for C5 at a concrete full dataset. -/
theorem overall_quality_score_is_mean_witness :
    (∃ c0, (resultsOf 100 (mkValidator dsFull)
        ).overall.dimension_scores.completeness = some c0 ∧
      0 ≤ c0 ∧ c0 ≤ 100 ∧
      (resultsOf 100 (mkValidator dsFull)).overall.quality_score =
        some (round2 ((c0 +
          (resultsOf 100 (mkValidator dsFull)
            ).overall.dimension_scores.uniqueness +
          (resultsOf 100 (mkValidator dsFull)
            ).overall.dimension_scores.validity +
          (resultsOf 100 (mkValidator dsFull)
            ).overall.dimension_scores.consistency +
          (resultsOf 100 (mkValidator dsFull)
            ).overall.dimension_scores.accuracy) / 5))) ∧
    (0 ≤ (resultsOf 100 (mkValidator dsFull)
        ).overall.dimension_scores.uniqueness ∧
      (resultsOf 100 (mkValidator dsFull)
        ).overall.dimension_scores.uniqueness ≤ 100) ∧
    (0 ≤ (resultsOf 100 (mkValidator dsFull)
        ).overall.dimension_scores.validity ∧
      (resultsOf 100 (mkValidator dsFull)
        ).overall.dimension_scores.validity ≤ 100) ∧
    (0 ≤ (resultsOf 100 (mkValidator dsFull)
        ).overall.dimension_scores.consistency ∧
      (resultsOf 100 (mkValidator dsFull)
        ).overall.dimension_scores.consistency ≤ 100) ∧
    (0 ≤ (resultsOf 100 (mkValidator dsFull)
        ).overall.dimension_scores.accuracy ∧
      (resultsOf 100 (mkValidator dsFull)
        ).overall.dimension_scores.accuracy ≤ 100) :=
  overall_quality_score_is_mean 100 (mkValidator dsFull) _ _
    (runAll_eq 100 (mkValidator dsFull) (by decide) (by decide) (by decide))

/-! ## Claim theorem: percentage denominators (C6) -/

/-- C6: every percentage reported in the validation results — completeness
per-column and per-record percentages, exact- and key-duplicate
percentages, range-violation percentages, the future-date percentage, and
the high-satisfaction-high-wait percentage — is computed with the full
record count as denominator, except the outlier percentage in the accuracy
check, which divides by the count of non-null values of that column. -/
theorem percentage_denominators (now : ℚ) (st : ValidatorState)
    (res : ValidationResults) (s5 : ValidatorState)
    (h : runAllValidations now st = .ok (res, s5))
    (hA : st.df.Aligned) (hdp : "date_parsed" ∉ st.df.cols) :
    (∀ p ∈ res.completeness.missing_by_column,
      p.2.percentage = some (round2
        ((p.2.count : ℚ) / (st.df.rows.length : ℚ) * 100))) ∧
    res.completeness.missing_by_record.percentage = some (round2
      ((res.completeness.missing_by_record.records_with_missing : ℚ) /
        (st.df.rows.length : ℚ) * 100)) ∧
    res.uniqueness.exact_duplicates.percentage = round2
      ((res.uniqueness.exact_duplicates.count : ℚ) /
        (st.df.rows.length : ℚ) * 100) ∧
    res.uniqueness.id_date_duplicates.percentage = round2
      ((res.uniqueness.id_date_duplicates.count : ℚ) /
        (st.df.rows.length : ℚ) * 100) ∧
    (∀ p ∈ res.validity.range_violations,
      p.2.percentage = round2
        ((p.2.violations : ℚ) / (st.df.rows.length : ℚ) * 100)) ∧
    (∀ f, res.consistency.temporal_consistency = some f →
      f.percentage = round2
        ((f.count : ℚ) / (st.df.rows.length : ℚ) * 100)) ∧
    (∀ l, res.consistency.logical_consistency = some l →
      l.percentage = round2
        ((l.count : ℚ) / (st.df.rows.length : ℚ) * 100)) ∧
    (∀ p ∈ res.accuracy.outliers,
      p.2.percentage = round2
        ((p.2.count : ℚ) / (nonNullCount st.df p.1 : ℚ) * 100)) := by
  obtain ⟨hn, hp, hd, hres, -⟩ := runAll_ok_inv h
  subst hres
  refine ⟨?_, ?_, ?_, ?_, ?_, ?_, ?_, ?_⟩
  · intro p hpm
    simp only [resultsOf] at hpm ⊢
    exact (compRes_mbc st.df hn p hpm).2
  · simp only [resultsOf]
    exact compRes_mbr st.df hn
  · simp only [resultsOf, uniqResOf]
  · simp only [resultsOf, uniqResOf]
  · intro p hpm
    simp only [resultsOf, validityResOf, rangePairOf] at hpm
    exact (rangeFold_inv st.df st.df.rows.length expectedRanges ([], [])
      (by intro p hp0; simp at hp0) p hpm).2
  · intro f hf
    simp only [resultsOf, consResOf, consTripOf, futCount, hd, if_true,
      Option.some.injEq] at hf
    subst hf
    rfl
  · intro l hl
    simp only [resultsOf, consResOf, logicalOf] at hl
    by_cases hsw : "patient_sat_score" ∈ (consTripOf now st.df).2.1.cols ∧
        "patient_waittime" ∈ (consTripOf now st.df).2.1.cols
    · rw [if_pos hsw, Option.some.injEq] at hl
      subst hl
      rfl
    · rw [if_neg hsw] at hl
      exact absurd hl (by simp)
  · intro p hpm
    simp only [resultsOf, accTripOf] at hpm
    have hinv := accFold_inv (consTripOf now st.df).2.1 numericColumns
      (([], [], [])) (by intro p hp0; simp at hp0)
      (fun c hc => hc) p hpm
    obtain ⟨hmem, hnum, hpct⟩ := hinv
    rw [consTripOf_df now st.df hd] at hmem hpct
    have hne : p.1 ≠ "date_parsed" := by
      intro heq
      rw [heq] at hnum
      exact absurd hnum (by decide)
    have hcol : p.1 ∈ st.df.cols := by
      rw [withDateParsed_cols st.df hdp, List.mem_append] at hmem
      rcases hmem with hmem | hmem
      · exact hmem
      · exact absurd (List.mem_singleton.mp hmem) hne
    rw [hpct, nonNullCount_withDateParsed st.df hA hdp hcol]

/-- Witness for C6 at a concrete dataset. -/
theorem percentage_denominators_witness :
    (∀ p ∈ (resultsOf 7 (mkValidator dsSmall)).completeness.missing_by_column,
      p.2.percentage = some (round2
        ((p.2.count : ℚ) / (dsSmall.rows.length : ℚ) * 100))) ∧
    (resultsOf 7 (mkValidator dsSmall)
      ).completeness.missing_by_record.percentage = some (round2
      (((resultsOf 7 (mkValidator dsSmall)
        ).completeness.missing_by_record.records_with_missing : ℚ) /
        (dsSmall.rows.length : ℚ) * 100)) ∧
    (resultsOf 7 (mkValidator dsSmall)
      ).uniqueness.exact_duplicates.percentage = round2
      (((resultsOf 7 (mkValidator dsSmall)
        ).uniqueness.exact_duplicates.count : ℚ) /
        (dsSmall.rows.length : ℚ) * 100) ∧
    (resultsOf 7 (mkValidator dsSmall)
      ).uniqueness.id_date_duplicates.percentage = round2
      (((resultsOf 7 (mkValidator dsSmall)
        ).uniqueness.id_date_duplicates.count : ℚ) /
        (dsSmall.rows.length : ℚ) * 100) ∧
    (∀ p ∈ (resultsOf 7 (mkValidator dsSmall)).validity.range_violations,
      p.2.percentage = round2
        ((p.2.violations : ℚ) / (dsSmall.rows.length : ℚ) * 100)) ∧
    (∀ f, (resultsOf 7 (mkValidator dsSmall)
        ).consistency.temporal_consistency = some f →
      f.percentage = round2
        ((f.count : ℚ) / (dsSmall.rows.length : ℚ) * 100)) ∧
    (∀ l, (resultsOf 7 (mkValidator dsSmall)
        ).consistency.logical_consistency = some l →
      l.percentage = round2
        ((l.count : ℚ) / (dsSmall.rows.length : ℚ) * 100)) ∧
    (∀ p ∈ (resultsOf 7 (mkValidator dsSmall)).accuracy.outliers,
      p.2.percentage = round2
        ((p.2.count : ℚ) / (nonNullCount dsSmall p.1 : ℚ) * 100)) :=
  percentage_denominators 7 (mkValidator dsSmall) _ _
    (runAll_eq 7 (mkValidator dsSmall) (by decide) (by decide) (by decide))
    (by decide) (by decide)

/-! ## Claim theorem: one exact duplicate pair (C9) -/

lemma dupKeepFalse_unique_pair (rows : List (List Value))
    (r0 : List Value) (h2 : rowCount rows r0 = 2)
    (h1 : ∀ s, s ≠ r0 → rowCount rows s ≤ 1) :
    dupKeepFalseCount rows = 2 := by
  unfold dupKeepFalseCount
  have hcong : ∀ x ∈ rows,
      (decide (2 ≤ rowCount rows x)) = (decide (x = r0)) := by
    intro x hx
    by_cases hxr : x = r0
    · subst hxr
      rw [h2]
      simp
    · have hle := h1 x hxr
      rw [decide_eq_false (by omega), decide_eq_false hxr]
  rw [List.filter_congr hcong, ← List.countP_eq_length_filter]
  exact h2

/-- C9: for a dataset containing exactly one pair of records identical
across every column and no other duplicates (and the `patient_id`/`date`
key columns the check requires), `check_uniqueness` reports
`exact_duplicates.count = 2` — both members of the pair are flagged — and
the batch of recommendations it appends contains exactly one
MEDIUM-severity entry. -/
theorem duplicate_pair_reports_two (st : ValidatorState) (r0 : List Value)
    (hp : "patient_id" ∈ st.df.cols) (hd : "date" ∈ st.df.cols)
    (h2 : rowCount st.df.rows r0 = 2)
    (h1 : ∀ s, s ≠ r0 → rowCount st.df.rows s ≤ 1) :
    checkUniqueness st = .ok (uniqResOf st.df,
      { st with recommendations :=
          st.recommendations ++ uniqRecsOf st.df }) ∧
    (uniqResOf st.df).exact_duplicates.count = 2 ∧
    ((uniqRecsOf st.df).filter
      (fun r => r.severity = "MEDIUM")).length = 1 := by
  have hn : st.df.rows.length ≠ 0 := by
    intro h0
    rw [List.length_eq_zero] at h0
    rw [h0] at h2
    simp [rowCount] at h2
  have hcnt : dupKeepFalseCount st.df.rows = 2 :=
    dupKeepFalse_unique_pair st.df.rows r0 h2 h1
  refine ⟨?_, ?_, ?_⟩
  · obtain ⟨df, odf, recs⟩ := st
    exact checkUniqueness_eq df odf hn hp hd recs
  · simp only [uniqResOf]
    exact hcnt
  · simp only [uniqRecsOf, hcnt]
    rw [if_pos (by norm_num)]
    by_cases hid : 0 < idDateDupCount st.df
    · rw [if_pos hid]
      simp
    · rw [if_neg hid]
      simp

/-- Witness for C9 at a three-row dataset whose first and third rows are
identical. -/
theorem duplicate_pair_reports_two_witness :
    checkUniqueness (mkValidator dsPair) = .ok (uniqResOf dsPair,
      { mkValidator dsPair with recommendations :=
          (mkValidator dsPair).recommendations ++ uniqRecsOf dsPair }) ∧
    (uniqResOf dsPair).exact_duplicates.count = 2 ∧
    ((uniqRecsOf dsPair).filter
      (fun r => r.severity = "MEDIUM")).length = 1 :=
  duplicate_pair_reports_two (mkValidator dsPair) [.num 1, .num 10]
    (by decide) (by decide) (by decide)
    (by
      intro s hs
      have hd1 : (decide (([Value.num 1, Value.num 10] : List Value) = s)) =
          false := decide_eq_false (fun h => hs h.symm)
      simp only [mkValidator, dsPair, rowCount, List.countP_cons,
        List.countP_nil, hd1]
      by_cases hd2 : (([Value.num 2, Value.num 20] : List Value) = s) <;>
        simp [hd2])

/-! ## Claim theorem: column-absence tolerance (C2, amended) -/

/-- C2 (amended): on a nonempty dataset that contains the `patient_id` and
`date` columns — the two the `check_uniqueness` key-duplicate check reads
without a presence guard — every check method completes, and every
per-column entry of every result record names a column actually present in
the dataset: an absent configured column is skipped and generates no entry
(and hence no recommendation, which are emitted only alongside entries). -/
theorem checks_skip_absent_columns (now : ℚ) (st : ValidatorState)
    (hn : st.df.rows.length ≠ 0)
    (hp : "patient_id" ∈ st.df.cols) (hd : "date" ∈ st.df.cols) :
    checkUniqueness st = .ok (uniqResOf st.df,
      { st with recommendations :=
          st.recommendations ++ uniqRecsOf st.df }) ∧
    checkValidity st = .ok (validityResOf st.df,
      { st with recommendations :=
          st.recommendations ++ validityRecsOf st.df }) ∧
    checkConsistency now st = .ok (consResOf now st.df,
      { st with df := (consTripOf now st.df).2.1
                recommendations :=
                  st.recommendations ++ (consTripOf now st.df).2.2 }) ∧
    checkAccuracy st = .ok
      ({ outliers := (accTripOf st.df).1
         statistical_summary := (accTripOf st.df).2.1 },
       { st with recommendations :=
           st.recommendations ++ (accTripOf st.df).2.2 }) ∧
    (∀ q ∈ (checkCompleteness st).1.missing_by_column, q.1 ∈ st.df.cols) ∧
    (∀ q ∈ (uniqResOf st.df).unique_constraints, q.1 ∈ st.df.cols) ∧
    (∀ q ∈ (validityResOf st.df).range_violations, q.1 ∈ st.df.cols) ∧
    (∀ q ∈ (validityResOf st.df).value_violations, q.1 ∈ st.df.cols) ∧
    (∀ q ∈ (accTripOf st.df).1, q.1 ∈ st.df.cols) := by
  obtain ⟨df, odf, recs⟩ := st
  refine ⟨checkUniqueness_eq df odf hn hp hd recs,
    checkValidity_eq df odf hn recs,
    checkConsistency_eq now df odf hn recs,
    checkAccuracy_eq df odf recs, ?_, ?_, ?_, ?_, ?_⟩
  · intro q hq
    exact (compRes_mbc df hn q hq).1
  · intro q hq
    simp only [uniqResOf] at hq
    exact ucFold_inv df df.rows.length uniquenessKeyColumns []
      (by intro p hp0; simp at hp0) q hq
  · intro q hq
    simp only [validityResOf, rangePairOf] at hq
    exact (rangeFold_inv df df.rows.length expectedRanges ([], [])
      (by intro p hp0; simp at hp0) q hq).1
  · intro q hq
    simp only [validityResOf, valueViolLoop] at hq
    exact valueFold_inv df validValues ([], [])
      (by intro p hp0; simp at hp0) q hq
  · intro q hq
    exact (accFold_inv df numericColumns ([], [], [])
      (by intro p hp0; simp at hp0) (fun c hc => hc) q hq).1

/-- Witness for the amended C2 at a one-row dataset that lacks most of the
configured columns. -/
theorem checks_skip_absent_columns_witness :
    checkUniqueness (mkValidator dsSmall) = .ok (uniqResOf dsSmall,
      { mkValidator dsSmall with recommendations :=
          (mkValidator dsSmall).recommendations ++ uniqRecsOf dsSmall }) ∧
    checkValidity (mkValidator dsSmall) = .ok (validityResOf dsSmall,
      { mkValidator dsSmall with recommendations :=
          (mkValidator dsSmall).recommendations ++ validityRecsOf dsSmall }) ∧
    checkConsistency 3 (mkValidator dsSmall) = .ok (consResOf 3 dsSmall,
      { mkValidator dsSmall with
          df := (consTripOf 3 dsSmall).2.1,
          recommendations :=
            (mkValidator dsSmall).recommendations ++
              (consTripOf 3 dsSmall).2.2 }) ∧
    checkAccuracy (mkValidator dsSmall) = .ok
      ({ outliers := (accTripOf dsSmall).1
         statistical_summary := (accTripOf dsSmall).2.1 },
       { mkValidator dsSmall with recommendations :=
           (mkValidator dsSmall).recommendations ++
             (accTripOf dsSmall).2.2 }) ∧
    (∀ q ∈ (checkCompleteness (mkValidator dsSmall)).1.missing_by_column,
      q.1 ∈ dsSmall.cols) ∧
    (∀ q ∈ (uniqResOf dsSmall).unique_constraints, q.1 ∈ dsSmall.cols) ∧
    (∀ q ∈ (validityResOf dsSmall).range_violations, q.1 ∈ dsSmall.cols) ∧
    (∀ q ∈ (validityResOf dsSmall).value_violations, q.1 ∈ dsSmall.cols) ∧
    (∀ q ∈ (accTripOf dsSmall).1, q.1 ∈ dsSmall.cols) :=
  checks_skip_absent_columns 3 (mkValidator dsSmall) (by decide)
    (by decide) (by decide)

/-! ## Claim theorems: hidden state between runs (C3) -/

/-- C3 counterexample: running the validation twice on the same validator
instance over the same (externally unchanged) dataset snapshot does NOT
produce identical result records — the first run reports 2 columns in the
completeness record, the second reports 3, because `check_consistency`
stored a `date_parsed` column into the validator's dataframe. -/
theorem second_run_differs_concrete :
    (runAllValidations 0 (mkValidator dsSmall)).map
        (fun p => p.1.completeness.total_columns) = .ok 2 ∧
    ((runAllValidations 0 (mkValidator dsSmall)).bind
        (fun p => runAllValidations 0 p.2)).map
        (fun p => p.1.completeness.total_columns) = .ok 3 :=
  ⟨rfl, rfl⟩

/-- C3 (amended): a single run is a pure function of the validator state
and the clock, but state IS carried between runs: whenever a first run
succeeds and a second run is made on the resulting state, the second
completeness record reports one more column than the first (the stored
`date_parsed` column), so the result records are not identical. -/
theorem second_run_not_identical (now now' : ℚ) (st : ValidatorState)
    (r1 r2 : ValidationResults) (s1 s2 : ValidatorState)
    (hdp : "date_parsed" ∉ st.df.cols)
    (h1 : runAllValidations now st = .ok (r1, s1))
    (h2 : runAllValidations now' s1 = .ok (r2, s2)) :
    r1.completeness.total_columns = st.df.cols.length ∧
    r2.completeness.total_columns = st.df.cols.length + 1 ∧
    r1.completeness ≠ r2.completeness := by
  obtain ⟨hn, hp, hd, hres1, hs1⟩ := runAll_ok_inv h1
  subst hres1
  subst hs1
  obtain ⟨-, -, -, hres2, -⟩ := runAll_ok_inv h2
  subst hres2
  have hcols : (finalStateOf now st).df.cols =
      st.df.cols ++ ["date_parsed"] := by
    simp only [finalStateOf, consTripOf_df now st.df hd]
    exact withDateParsed_cols st.df hdp
  have e1 : (resultsOf now st).completeness.total_columns =
      st.df.cols.length := by
    simp [resultsOf, compResOf]
  have e2 : (resultsOf now' (finalStateOf now st)
      ).completeness.total_columns = st.df.cols.length + 1 := by
    simp [resultsOf, compResOf, hcols]
  refine ⟨e1, e2, ?_⟩
  intro heq
  have := congrArg CompletenessResult.total_columns heq
  rw [e1, e2] at this
  omega

/-- Witness for the amended C3 at a concrete dataset. -/
theorem second_run_not_identical_witness :
    (resultsOf 0 (mkValidator dsSmall)).completeness.total_columns =
      dsSmall.cols.length ∧
    (resultsOf 0 (finalStateOf 0 (mkValidator dsSmall))
      ).completeness.total_columns = dsSmall.cols.length + 1 ∧
    (resultsOf 0 (mkValidator dsSmall)).completeness ≠
      (resultsOf 0 (finalStateOf 0 (mkValidator dsSmall))).completeness :=
  second_run_not_identical 0 0 (mkValidator dsSmall) _ _ _ _
    (by decide)
    (runAll_eq 0 (mkValidator dsSmall) (by decide) (by decide) (by decide))
    (runAll_eq 0 (finalStateOf 0 (mkValidator dsSmall)) (by decide)
      (by decide) (by decide))

/-! ## Claim theorems: checker mutation of the dataset (C4) -/

/-- C4 counterexample: `check_consistency` mutates the validator's
dataset — on a dataset with columns `patient_id`, `date` it appends a
`date_parsed` column, so the stored dataframe afterwards differs from the
input snapshot. -/
theorem consistency_mutates_dataset :
    (checkConsistency 0 (mkValidator dsSmall)).map
        (fun p => p.2.df.cols) =
      .ok ["patient_id", "date", "date_parsed"] ∧
    dsSmall.cols = ["patient_id", "date"] ∧
    (checkConsistency 0 (mkValidator dsSmall)).map (fun p => p.2.df) ≠
      .ok dsSmall := by
  refine ⟨rfl, rfl, ?_⟩
  intro h
  have h1 := Except.ok.inj h
  have h2 := congrArg Dataset.cols h1
  exact absurd h2 (by decide)

/-- C4 (amended): `check_completeness`, `check_uniqueness`,
`check_validity` and `check_accuracy` never change the validator's
dataset; `check_consistency` changes it exactly when a `date` column is
present, replacing it with the frame extended by `date_parsed`. -/
theorem only_consistency_mutates (now : ℚ) (st : ValidatorState) :
    ((checkCompleteness st).2.df = st.df) ∧
    (∀ u st', checkUniqueness st = .ok (u, st') → st'.df = st.df) ∧
    (∀ v st', checkValidity st = .ok (v, st') → st'.df = st.df) ∧
    (∀ a st', checkAccuracy st = .ok (a, st') → st'.df = st.df) ∧
    (∀ c st', checkConsistency now st = .ok (c, st') →
      st'.df = if "date" ∈ st.df.cols then withDateParsed st.df
        else st.df) := by
  refine ⟨rfl, ?_, ?_, ?_, ?_⟩
  · intro u st' h
    obtain ⟨-, -, -, -, hst⟩ := checkUniqueness_ok_inv h
    rw [hst]
  · intro v st' h
    cases hr : rangeViolLoop st.df st.df.rows.length with
    | error e =>
      simp only [checkValidity, hr, bindErr] at h
      exact Except.noConfusion h
    | ok rp =>
      simp only [checkValidity, hr, bindOk, pureOk, Except.ok.injEq,
        Prod.mk.injEq] at h
      rw [← h.2]
  · intro a st' h
    obtain ⟨df, odf, recs⟩ := st
    rw [checkAccuracy_eq df odf recs] at h
    rw [Except.ok.injEq, Prod.mk.injEq] at h
    rw [← h.2]
  · intro c st' h
    cases ht : temporalM now st.df st.df.rows.length with
    | error e =>
      simp only [checkConsistency, ht, bindErr] at h
      exact Except.noConfusion h
    | ok tt =>
      cases hl : logicalM tt.2.1 st.df.rows.length with
      | error e =>
        simp only [checkConsistency, ht, bindOk, hl, bindErr] at h
        exact Except.noConfusion h
      | ok lg =>
        simp only [checkConsistency, ht, bindOk, hl, pureOk,
          Except.ok.injEq, Prod.mk.injEq] at h
        rw [← h.2]
        by_cases hd : "date" ∈ st.df.cols
        · simp only [temporalM, hd, if_true] at ht
          cases hq : pctOf ((colVals (withDateParsed st.df)
              "date_parsed").countP (fun v => numGt v now))
              st.df.rows.length with
          | error e =>
            rw [hq, bindErr] at ht
            exact Except.noConfusion ht
          | ok q =>
            rw [hq, bindOk, pureOk, Except.ok.injEq] at ht
            rw [← ht]
            simp [hd]
        · simp only [temporalM, hd, if_false, pureOk,
            Except.ok.injEq] at ht
          rw [← ht]
          simp [hd]

/-- Witness for the amended C4: at a concrete dataset with a `date`
column, the consistency check really does replace the dataframe. -/
theorem only_consistency_mutates_witness :
    ((checkCompleteness (mkValidator dsSmall)).2.df = dsSmall) ∧
    (checkConsistency 5 (mkValidator dsSmall) = .ok (consResOf 5 dsSmall,
      { mkValidator dsSmall with
          df := (consTripOf 5 dsSmall).2.1,
          recommendations :=
            (mkValidator dsSmall).recommendations ++
              (consTripOf 5 dsSmall).2.2 })) ∧
    (consTripOf 5 dsSmall).2.1 =
      (if "date" ∈ dsSmall.cols then withDateParsed dsSmall
        else dsSmall) :=
  ⟨(only_consistency_mutates 5 (mkValidator dsSmall)).1,
   checkConsistency_eq 5 dsSmall dsSmall (by decide) [],
   (only_consistency_mutates 5 (mkValidator dsSmall)).2.2.2.2 _ _
     (checkConsistency_eq 5 dsSmall dsSmall (by decide) [])⟩

/-! ## Claim theorem: the caller's dataframe is unaffected (C10) -/

/-- C10: the validator operates only on the copies of the caller's
dataframe taken at construction (`df.copy()` is modelled by the value
snapshot stored in the state), so although a successful run mutates the
validator's working dataframe, the pristine snapshot — and hence the
caller's dataframe — is exactly the frame passed in. -/
theorem caller_dataframe_unaffected (now : ℚ) (df : Dataset)
    (res : ValidationResults) (s' : ValidatorState)
    (hdp : "date_parsed" ∉ df.cols)
    (h : runAllValidations now (mkValidator df) = .ok (res, s')) :
    s'.original_df = df ∧ s'.df ≠ df := by
  obtain ⟨hn, hp, hd, -, hs⟩ := runAll_ok_inv h
  subst hs
  refine ⟨rfl, ?_⟩
  intro heq
  have hc : (finalStateOf now (mkValidator df)).df.cols =
      df.cols ++ ["date_parsed"] := by
    simp only [finalStateOf, mkValidator, consTripOf_df now df hd]
    exact withDateParsed_cols df hdp
  rw [heq] at hc
  have := congrArg List.length hc
  simp at this

/-- Witness for C10 at a concrete dataset. -/
theorem caller_dataframe_unaffected_witness :
    (finalStateOf 9 (mkValidator dsSmall)).original_df = dsSmall ∧
    (finalStateOf 9 (mkValidator dsSmall)).df ≠ dsSmall :=
  caller_dataframe_unaffected 9 dsSmall _ _ (by decide)
    (runAll_eq 9 (mkValidator dsSmall) (by decide) (by decide) (by decide))

end DQV
